import Mathlib

/-!
Verification of the Shopify import pipeline (AI1289/Shopify_Project).

Shallow embedding of the pipeline's source files:
  * `helper.py`      — `is_invalid`, `get_variant_options`, `generate_shopify_sku`
  * `processor.py`   — strict `safe_eval`, `fuzzy_match_columns`, `sanitize_handle`,
                       `build_description`, the `process_file` group loop
  * `processor_no_weight.py` — its `safe_eval` (node set with `Call`), its
                       validity filter, variant-option logic and SKU logic
  * `description.py` — lenient `safe_eval`, `generate_description`

Modelling conventions:
  * Python floats are modelled as exact rationals (`Rat`), plus an explicit
    `nan` value; the claims under verification do not depend on binary
    floating-point rounding.
  * Python strings are Lean `String`s; `str.strip`, `str.upper`, `str.lower`
    are modelled for ASCII and the Latin-1 letter block (the only characters
    the sources and claims exercise).
  * `ast.parse` is an external (stdlib) boundary: a user formula is a pair of
    its source text and its parse result (`none` = syntax error).
-/

-- The batteries rational operations are `@[irreducible]`; the embeddings
-- below are executable and their concrete runs are settled by kernel
-- reduction, so restore reducibility for this file.
attribute [local semireducible] Rat.mul Rat.inv Rat.add Rat.sub Rat.ofScientific

set_option maxRecDepth 8000

namespace Shopify

/-- A Python runtime value as it occurs in a pandas row cell or a formula
context: int, float (exact-rational model), str, `None`, and float `nan`. -/
inductive PyVal where
  | vint (n : Int)
  | vfloat (q : Rat)
  | vstr (s : String)
  | vnone
  | vnan
deriving DecidableEq

/-- Characters removed by Python `str.strip()` (ASCII whitespace model). -/
def isPySpace (c : Char) : Bool :=
  c = ' ' || c = '\t' || c = '\n' || c = '\r' || c = Char.ofNat 11 || c = Char.ofNat 12

/-- Python `str.strip()`. -/
def pyStrip (s : String) : String :=
  ⟨((s.data.dropWhile isPySpace).reverse.dropWhile isPySpace).reverse⟩

/-- Uppercase table for ASCII and Latin-1 letters (Python `str.upper`
mappings; `ß`, which expands to `SS`, is handled separately).  In particular
`â` (U+00E2) maps to `Â` (U+00C2): no character uppercases to `â`. -/
def upperPairs : List (Char × Char) :=
  [('a', 'A'), ('b', 'B'), ('c', 'C'), ('d', 'D'), ('e', 'E'), ('f', 'F'),
   ('g', 'G'), ('h', 'H'), ('i', 'I'), ('j', 'J'), ('k', 'K'), ('l', 'L'),
   ('m', 'M'), ('n', 'N'), ('o', 'O'), ('p', 'P'), ('q', 'Q'), ('r', 'R'),
   ('s', 'S'), ('t', 'T'), ('u', 'U'), ('v', 'V'), ('w', 'W'), ('x', 'X'),
   ('y', 'Y'), ('z', 'Z'), ('à', 'À'), ('á', 'Á'), ('â', 'Â'), ('ã', 'Ã'),
   ('ä', 'Ä'), ('å', 'Å'), ('æ', 'Æ'), ('ç', 'Ç'), ('è', 'È'), ('é', 'É'),
   ('ê', 'Ê'), ('ë', 'Ë'), ('ì', 'Ì'), ('í', 'Í'), ('î', 'Î'), ('ï', 'Ï'),
   ('ð', 'Ð'), ('ñ', 'Ñ'), ('ò', 'Ò'), ('ó', 'Ó'), ('ô', 'Ô'), ('õ', 'Õ'),
   ('ö', 'Ö'), ('ø', 'Ø'), ('ù', 'Ù'), ('ú', 'Ú'), ('û', 'Û'), ('ü', 'Ü'),
   ('ý', 'Ý'), ('þ', 'Þ'), ('µ', 'Μ')]

/-- Python `str.upper()` on one character (ASCII + Latin-1 model; characters
outside the table are unchanged). -/
def pyUpperChar (c : Char) : List Char :=
  if c = 'ß' then ['S', 'S']
  else
    match upperPairs.find? (fun p => p.1 == c) with
    | some p => [p.2]
    | none => [c]

/-- Python `str.upper()`. -/
def pyUpper (s : String) : String := ⟨s.data.flatMap pyUpperChar⟩

/-- Python `str.lower()` on one character (ASCII + Latin-1 model). -/
def pyLowerChar (c : Char) : Char :=
  if 'A' ≤ c && c ≤ 'Z' then Char.ofNat (c.toNat + 32)
  else if 0xC0 ≤ c.toNat && c.toNat ≤ 0xDE && c.toNat != 0xD7 then
    Char.ofNat (c.toNat + 32)
  else c

/-- Python `str.lower()`. -/
def pyLower (s : String) : String := ⟨s.data.map pyLowerChar⟩

/-- A pandas row, as an association list from column name to cell value
(first binding wins, as in a Python dict). -/
abbrev Row := List (String × PyVal)

/-- Python `row.get(k, d)`. -/
def rowGet (row : Row) (k : String) (d : PyVal) : PyVal :=
  match row.find? (fun p => p.1 == k) with
  | some p => p.2
  | none => d

/-- Python `str(v)` for the values the pipeline stringifies.  Floats print
with a trailing `.0` when integral and as an exact decimal otherwise
(exact-rational model of `repr(float)`); `nan` prints as `nan`. -/
def pyStrOfRat (q : Rat) : String :=
  let sign := if q < 0 then "-" else ""
  let q' := |q|
  let rec digits (n : Nat) : String := Nat.repr n
  if q'.den = 1 then sign ++ digits q'.num.toNat ++ ".0"
  else
    -- exact decimal expansion when the denominator is 2^a * 5^b (Python float
    -- denominators always are); k = number of fractional digits needed
    let k := (List.range 40).find? (fun k => (q' * (10 : Rat) ^ k).den = 1)
    match k with
    | some k =>
      let scaled := (q' * (10 : Rat) ^ k).num.toNat
      let s := Nat.repr scaled
      let s := if s.length ≤ k then String.mk (List.replicate (k + 1 - s.length) '0') ++ s else s
      let ip := s.dropRight k
      let fp := s.takeRight k
      sign ++ ip ++ "." ++ fp
    | none => sign ++ q'.num.repr ++ "/" ++ digits q'.den
def pyStr (v : PyVal) : String :=
  match v with
  | .vint n => if n < 0 then "-" ++ n.natAbs.repr else n.natAbs.repr
  | .vfloat q => pyStrOfRat q
  | .vstr s => s
  | .vnone => "None"
  | .vnan => "nan"

/-- `pd.isnull` / `pd.isna` on a scalar. -/
def pdIsNull (v : PyVal) : Bool :=
  match v with
  | .vnone => true
  | .vnan => true
  | _ => false

/-- `helper.is_invalid`, translated literally.  The fifth tuple element in the
source is the three-character mojibake string `â€”` (the UTF-8 bytes of the em
dash U+2014 decoded as cp1252), exactly as the bytes of `helper.py` have it —
not the em dash itself. -/
def is_invalid (v : PyVal) : Bool :=
  match v with
  | .vstr s => decide (pyUpper (pyStrip s) ∈ ["", "CF", "N/A", "-", "â€”", "NAN"])
  | _ => pdIsNull v

/-- `helper.get_variant_options`: fills up to three option-name/option-value
slots from the first three configured option fields; a slot whose row value
is `is_invalid` keeps the empty defaults. -/
def get_variant_options (row : Row) (variant_option_fields : List String) :
    List String × List PyVal :=
  let fs := variant_option_fields.take 3
  let slot (i : Nat) : String × PyVal :=
    match fs.get? i with
    | some f =>
      let v := rowGet row f (.vstr "")
      if is_invalid v then ("", .vstr "") else (f, v)
    | none => ("", .vstr "")
  ([(slot 0).1, (slot 1).1, (slot 2).1], [(slot 0).2, (slot 1).2, (slot 2).2])

/-! ## Fuzzy column matching (`fuzzywuzzy.fuzz.token_set_ratio` over difflib)

`processor.py` and `processor_no_weight.py` share `fuzzy_match_columns`, which
scores `fuzz.token_set_ratio(col.lower(), alias.lower())` against a fixed
threshold of 70.  The model below follows fuzzywuzzy's pure-Python path:
`full_process` (ASCII filter, non-word characters to spaces, lowercase, strip),
token sets, and `difflib.SequenceMatcher.ratio` (Ratcliff–Obershelp matching
blocks; the strings involved are far below difflib's 200-character autojunk
threshold, so no junk heuristics apply). -/

/-- A regex `\W` word character after the ASCII filter: `[a-zA-Z0-9_]`. -/
def isWordChar (c : Char) : Bool :=
  ('a' ≤ c && c ≤ 'z') || ('A' ≤ c && c ≤ 'Z') || ('0' ≤ c && c ≤ '9') || c = '_'

/-- `pyStrip` on a character list. -/
def stripChars (cs : List Char) : List Char :=
  ((cs.dropWhile isPySpace).reverse.dropWhile isPySpace).reverse

/-- fuzzywuzzy `utils.full_process(s, force_ascii=True)`: drop non-ASCII
characters, replace every non-word character by a space, lowercase, strip. -/
def fullProcess (s : String) : List Char :=
  stripChars (((s.data.filter (fun c => c.toNat < 128)).map
    (fun c => if isWordChar c then c else ' ')).map pyLowerChar)

/-- Python `str.split()` on a processed string (tokens separated by spaces,
empty pieces dropped). -/
def splitTokens (cs : List Char) : List (List Char) :=
  (cs.splitOnP (fun c => c == ' ')).filter (fun t => !t.isEmpty)

/-- Lexicographic order on character lists (Python string `<`). -/
def charListLt : List Char → List Char → Bool
  | [], [] => false
  | [], _ :: _ => true
  | _ :: _, [] => false
  | a :: as, b :: bs =>
    if a.toNat < b.toNat then true
    else if b.toNat < a.toNat then false
    else charListLt as bs

/-- Insert into a sorted duplicate-free token list (Python `sorted(set(...))`). -/
def insertTok (t : List Char) : List (List Char) → List (List Char)
  | [] => [t]
  | u :: us =>
    if t = u then u :: us
    else if charListLt t u then t :: u :: us
    else u :: insertTok t us

/-- Python `sorted(set(tokens))`. -/
def sortedTokenSet (l : List (List Char)) : List (List Char) :=
  l.foldr insertTok []

/-- Python `" ".join(tokens)`. -/
def joinTokens : List (List Char) → List Char
  | [] => []
  | [t] => t
  | t :: ts => t ++ ' ' :: joinTokens ts

/-- Length of the common prefix of two character lists. -/
def commonPrefixLen : List Char → List Char → Nat
  | a :: as, b :: bs => if a = b then commonPrefixLen as bs + 1 else 0
  | _, _ => 0

/-- Scan the candidate start pairs, keeping the first strictly-longest
match (the accumulator's length is forced at every step, keeping reduction
depth constant). -/
def flmBest (a b : List Char) (ahi bhi : Nat) :
    List (Nat × Nat) → Nat × Nat × Nat → Nat × Nat × Nat
  | [], best => best
  | ij :: rest, best =>
    match best,
        commonPrefixLen ((a.drop ij.1).take (ahi - ij.1)) ((b.drop ij.2).take (bhi - ij.2)) with
    | (bi, bj, bk), k =>
      match Nat.blt bk k with
      | true => flmBest a b ahi bhi rest (ij.1, ij.2, k)
      | false => flmBest a b ahi bhi rest (bi, bj, bk)

/-- `difflib.SequenceMatcher.find_longest_match` on the windows
`a[alo:ahi]`, `b[blo:bhi]` (no junk): the longest matching block, the one with
the smallest `i` and then the smallest `j` among blocks of maximal size. -/
def flm (a b : List Char) (alo ahi blo bhi : Nat) : Nat × Nat × Nat :=
  flmBest a b ahi bhi
    ((List.range' alo (ahi - alo)).flatMap (fun i =>
      (List.range' blo (bhi - blo)).map (fun j => (i, j))))
    (alo, blo, 0)

/-- Total size of `difflib`'s matching blocks: recursively take the longest
match and recurse on both sides.  `fuel` bounds the recursion depth; any
`fuel ≥ (ahi - alo) + (bhi - blo)` is enough, since each recursive call
strictly shrinks the window pair. -/
def matchSum (a b : List Char) : Nat → Nat → Nat → Nat → Nat → Nat
  | 0, _, _, _, _ => 0
  | fuel + 1, alo, ahi, blo, bhi =>
    let r := flm a b alo ahi blo bhi
    if r.2.2 = 0 then 0
    else
      r.2.2 + matchSum a b fuel alo r.1 blo r.2.1 +
        matchSum a b fuel (r.1 + r.2.2) ahi (r.2.1 + r.2.2) bhi

/-- fuzzywuzzy `utils.intr(100 * x)` for the exact rational `x = 2M/T`,
i.e. Python `int(round(200*M/T))` with round-half-to-even. -/
def intrHalfEven (num den : Nat) : Nat :=
  let q := num / den
  let r := num % den
  if 2 * r < den then q
  else if den < 2 * r then q + 1
  else if q % 2 = 0 then q else q + 1

/-- `fuzz.ratio`: `intr(100 * SequenceMatcher(None, a, b).ratio())`. -/
def seqScore (a b : List Char) : Nat :=
  let T := a.length + b.length
  if T = 0 then 100
  else intrHalfEven (200 * matchSum a b T 0 a.length 0 b.length) T

/-- `fuzz.token_set_ratio(s1, s2)` (with `full_process`, `force_ascii`):
token-set construction and the max of the three pairwise ratios. -/
def tokenSetScore (s1 s2 : String) : Nat :=
  let p1 := fullProcess s1
  let p2 := fullProcess s2
  if p1.isEmpty || p2.isEmpty then 0
  else
    let t1 := sortedTokenSet (splitTokens p1)
    let t2 := sortedTokenSet (splitTokens p2)
    let sect := t1.filter (fun t => t ∈ t2)
    let d12 := t1.filter (fun t => t ∉ t2)
    let d21 := t2.filter (fun t => t ∉ t1)
    let sSect := joinTokens sect
    let s1to2 := stripChars (sSect ++ ' ' :: joinTokens d12)
    let s2to1 := stripChars (sSect ++ ' ' :: joinTokens d21)
    max (max (seqScore sSect s1to2) (seqScore sSect s2to1)) (seqScore s1to2 s2to1)

/-- `DEFAULT_MAP` of `processor.py` / `processor_no_weight.py` (canonical
field, ordered alias list), in source order. -/
def DEFAULT_MAP : List (String × List String) :=
  [("Model", ["Model"]),
   ("Voltage", ["Voltage"]),
   ("Power", ["Power HP", "Individual Pump Power (HP)"]),
   ("Weight", ["Weight lbs"]),
   ("List Price", ["List Price"]),
   ("Article Number", ["Article Number", "Part Number"])]

def FUZZY_THRESHOLD : Nat := 70

/-- The score computed by `fuzzy_match_columns` for one header against one
al: `fuzz.token_set_ratio(col.lower(), alias.lower())`. -/
def scoreCol (col al : String) : Nat := tokenSetScore (pyLower col) (pyLower al)

/-- The inner `for col in df.columns: ... break` loop: first header whose
score meets the threshold. -/
def colScan (al : String) : List String → Option String
  | [] => none
  | col :: cols =>
    if FUZZY_THRESHOLD ≤ scoreCol col al then some col else colScan al cols

/-- The outer `for alias in aliases: ... if key in mapping: break` loop. -/
def aliasScan (headers : List String) : List String → Option String
  | [] => none
  | al :: rest =>
    match colScan al headers with
    | some col => some col
    | none => aliasScan headers rest

/-- Python `repr` of a list of strings, as interpolated into the error
message `f"Missing required columns: {missing}"`. -/
def pyReprStrList (l : List String) : String :=
  "[" ++ String.intercalate ", " (l.map (fun s => "'" ++ s ++ "'")) ++ "]"

/-- The `mapping` dict built by `fuzzy_match_columns`, in `DEFAULT_MAP`
order. -/
def fuzzyMapping (headers : List String) : List (String × String) :=
  DEFAULT_MAP.foldl (fun m kv =>
    match aliasScan headers kv.2 with
    | some col => m ++ [(kv.1, col)]
    | none => m) []

/-- The `missing` list of `fuzzy_match_columns`. -/
def fuzzyMissing (headers : List String) : List String :=
  (DEFAULT_MAP.map (fun kv => kv.1)).filter
    (fun k => ((fuzzyMapping headers).find? (fun p => p.1 == k)).isNone)

/-- `fuzzy_match_columns` (identical in `processor.py` and
`processor_no_weight.py`): build the canonical-field → header mapping in
`DEFAULT_MAP` order, then raise naming the missing canonical fields. -/
def fuzzy_match_columns (headers : List String) : Except String (List (String × String)) :=
  if (fuzzyMissing headers).isEmpty then .ok (fuzzyMapping headers)
  else .error ("Missing required columns: " ++ pyReprStrList (fuzzyMissing headers))

/-- Specification-shaped resolution of one canonical field, following the
spec's words: iterate aliases in configured order, and for each alias iterate
source headers in table order, selecting the first header whose score meets
the threshold. -/
def specResolve (headers : List String) (aliases : List String) : Option String :=
  aliases.findSome? (fun al =>
    headers.find? (fun col => FUZZY_THRESHOLD ≤ scoreCol col al))

/-- The mapping `fuzzy_match_columns` should produce, spec-shaped. -/
def resolvedSpec (headers : List String) : List (String × String) :=
  DEFAULT_MAP.filterMap (fun kv => (specResolve headers kv.2).map (fun c => (kv.1, c)))

/-- The canonical fields with no qualifying header, spec-shaped. -/
def missingSpec (headers : List String) : List String :=
  (DEFAULT_MAP.filter (fun kv => (specResolve headers kv.2).isNone)).map (fun kv => kv.1)

/-! ## The sandboxed expression evaluator

The sources contain three `safe_eval` variants:
  * `processor.py` `safe_eval` — strict; allowed node set
    `(Expression, BinOp, Num, Name, Load, UnaryOp, Add, Sub, Mult, Div, Pow, USub)`;
    raises `ValueError("Invalid formula: ...")` on any failure.
  * `processor_no_weight.py` `safe_eval` — strict; the same set plus
    `(Call, FormattedValue, JoinedStr, Constant)`; note no restriction at all
    on which function a `Call` names.
  * `description.py` `safe_eval` — lenient; same node set as the
    no-weight variant; returns an inline placeholder string on any failure.

`helper.generate_shopify_sku` evaluates `config["sku_formula"]` with a bare
`eval(formula, {}, context)` and no static check of any kind.

`ast.parse` is a stdlib boundary: a formula is its text plus its parse
result.  Under Python ≥ 3.8 a numeric literal parses as `ast.Constant`, and
the deprecated `isinstance(node, ast.Num)` shim matches exactly the numeric
constants — so in the strict processor.py set a string literal is blocked
while a numeric literal passes. -/

/-- Python binary operator AST nodes. -/
inductive BOp where
  | add | sub | mult | div | pow | mod | floordiv
deriving DecidableEq

/-- Python unary operator AST nodes. -/
inductive UOp where
  | usub | uadd | unot
deriving DecidableEq

/-! Python expression AST (the fragment relevant to the pipeline, plus the
disallowed constructs needed to exercise the checkers).  Argument lists use
the companion type `PyExprs` (a plain list, kept separate so the mutual
recursions below stay structural). -/
mutual
inductive PyExpr where
  | const (v : PyVal)                       -- ast.Constant (ast.Num when numeric)
  | name (id : String)                      -- ast.Name (Load context)
  | binop (op : BOp) (l r : PyExpr)         -- ast.BinOp
  | unop (op : UOp) (e : PyExpr)            -- ast.UnaryOp
  | call (f : PyExpr) (args : PyExprs)      -- ast.Call
  | fstr (parts : PyExprs)                  -- ast.JoinedStr
  | formatted (e : PyExpr)                  -- ast.FormattedValue
  | attribute (o : PyExpr) (attr : String)  -- ast.Attribute
  | subscript (o : PyExpr) (idx : PyExpr)   -- ast.Subscript
  | compare (l r : PyExpr)                  -- ast.Compare (one comparator)
  | ifexp (c t e : PyExpr)                  -- ast.IfExp
  | lam (body : PyExpr)                     -- ast.Lambda
inductive PyExprs where
  | nil
  | cons (head : PyExpr) (tail : PyExprs)
end

/-- The expressions of a `PyExprs` list. -/
def PyExprs.toList : PyExprs → List PyExpr
  | .nil => []
  | .cons h t => h :: t.toList

/-- Build a `PyExprs` from a list. -/
def PyExprs.ofList : List PyExpr → PyExprs
  | [] => .nil
  | h :: t => .cons h (PyExprs.ofList t)

/-- One item of `ast.walk`: an expression node, a bare operator node, or the
`Load` context node (children of `Name`/`BinOp`/`UnaryOp` in the walk). -/
inductive WalkItem where
  | expr (e : PyExpr)
  | bop (o : BOp)
  | uop (o : UOp)
  | loadItem

/-- The Python class name of a walk item (`type(node).__name__`). -/
def itemName : WalkItem → String
  | .expr (.const _) => "Constant"
  | .expr (.name _) => "Name"
  | .expr (.binop ..) => "BinOp"
  | .expr (.unop ..) => "UnaryOp"
  | .expr (.call ..) => "Call"
  | .expr (.fstr _) => "JoinedStr"
  | .expr (.formatted _) => "FormattedValue"
  | .expr (.attribute ..) => "Attribute"
  | .expr (.subscript ..) => "Subscript"
  | .expr (.compare ..) => "Compare"
  | .expr (.ifexp ..) => "IfExp"
  | .expr (.lam _) => "Lambda"
  | .bop .add => "Add"
  | .bop .sub => "Sub"
  | .bop .mult => "Mult"
  | .bop .div => "Div"
  | .bop .pow => "Pow"
  | .bop .mod => "Mod"
  | .bop .floordiv => "FloorDiv"
  | .uop .usub => "USub"
  | .uop .uadd => "UAdd"
  | .uop .unot => "Not"
  | .loadItem => "Load"

/-- Children of a walk item, in `ast.iter_child_nodes` field order. -/
def itemChildren : WalkItem → List WalkItem
  | .expr (.const _) => []
  | .expr (.name _) => [.loadItem]
  | .expr (.binop o l r) => [.expr l, .bop o, .expr r]
  | .expr (.unop o e) => [.uop o, .expr e]
  | .expr (.call f args) => .expr f :: args.toList.map .expr
  | .expr (.fstr parts) => parts.toList.map .expr
  | .expr (.formatted e) => [.expr e]
  | .expr (.attribute o _) => [.expr o, .loadItem]
  | .expr (.subscript o i) => [.expr o, .expr i, .loadItem]
  | .expr (.compare l r) => [.expr l, .expr r]
  | .expr (.ifexp c t e) => [.expr c, .expr t, .expr e]
  | .expr (.lam b) => [.expr b]
  | _ => []

/-- Whether a walk item's node class is in the allowed tuple of
`processor.py`'s `safe_eval`: `(Expression, BinOp, Num, Name, Load, UnaryOp,
Add, Sub, Mult, Div, Pow, USub)`.  `ast.Num` matches exactly the numeric
`Constant` nodes; `Call`, `JoinedStr`, `FormattedValue` and non-numeric
`Constant` are not in the tuple. -/
def itemOkStrictPy : WalkItem → Bool
  | .expr (.const (.vint _)) => true
  | .expr (.const (.vfloat _)) => true
  | .expr (.const _) => false
  | .expr (.name _) => true
  | .expr (.binop ..) => true
  | .expr (.unop ..) => true
  | .bop .add | .bop .sub | .bop .mult | .bop .div | .bop .pow => true
  | .bop _ => false
  | .uop .usub => true
  | .uop _ => false
  | .loadItem => true
  | _ => false

/-- Whether a walk item's node class is in the allowed tuple of
`processor_no_weight.py`'s / `description.py`'s `safe_eval`: the strict tuple
plus `(Call, FormattedValue, JoinedStr, Constant)`.  Note the check is purely
on the node class: a `Call` is allowed no matter which function it names. -/
def itemOkNW : WalkItem → Bool
  | .expr (.const _) => true
  | .expr (.name _) => true
  | .expr (.binop ..) => true
  | .expr (.unop ..) => true
  | .expr (.call ..) => true
  | .expr (.fstr _) => true
  | .expr (.formatted _) => true
  | .bop .add | .bop .sub | .bop .mult | .bop .div | .bop .pow => true
  | .bop _ => false
  | .uop .usub => true
  | .uop _ => false
  | .loadItem => true
  | _ => false

/-! Node-count bound for an expression tree (for the walk's fuel). -/
mutual
def PyExpr.size : PyExpr → Nat
  | .const _ => 2
  | .name _ => 2
  | .binop _ l r => 2 + l.size + r.size
  | .unop _ e => 2 + e.size
  | .call f args => 1 + f.size + args.size
  | .fstr parts => 1 + parts.size
  | .formatted e => 1 + e.size
  | .attribute o _ => 2 + o.size
  | .subscript o i => 2 + o.size + i.size
  | .compare l r => 1 + l.size + r.size
  | .ifexp c t e => 1 + c.size + t.size + e.size
  | .lam b => 1 + b.size
def PyExprs.size : PyExprs → Nat
  | .nil => 0
  | .cons h t => h.size + t.size
end

/-- Size of a walk item (bounds the number of `ast.walk` steps). -/
def itemSize : WalkItem → Nat
  | .expr e => e.size
  | _ => 1

/-- Breadth-first `ast.walk` over a queue, reporting the class name of the
first node failing `ok` (the node whose name the source interpolates into
`"Unsafe expression ... [blocked {name}]"`), or `none` if every node passes.
`fuel` bounds the walk; any value at least the total size of the queued
items is enough. -/
def firstBlocked (ok : WalkItem → Bool) : Nat → List WalkItem → Option String
  | 0, _ => none
  | _, [] => none
  | fuel + 1, it :: rest =>
    if !ok it then some (itemName it)
    else firstBlocked ok fuel (rest ++ itemChildren it)

/-- The static check of `processor.py`'s `safe_eval` on a parsed expression:
the first blocked node, if any. -/
def astCheckStrictPy (e : PyExpr) : Option String :=
  firstBlocked itemOkStrictPy e.size [.expr e]

/-- The static check of `processor_no_weight.py`'s and `description.py`'s
`safe_eval` on a parsed expression: the first blocked node, if any. -/
def astCheckNW (e : PyExpr) : Option String :=
  firstBlocked itemOkNW e.size [.expr e]

/-! ## Evaluation (`eval(compile(tree, ..., "eval"), {}, context)`)

Name lookup goes to the `context` locals; the globals dict is empty, so an
unresolved name falls through to the builtins.  Of the builtins only `round`
is modelled (the only builtin the shipped formulas use); bare `eval` in
`helper.generate_shopify_sku` can of course reach any builtin — that path is
treated statically in the claims.  Python `bool` results and non-`Name`
callees are outside the model. -/

/-- Context lookup (a Python dict read). -/
def ctxGet (ctx : Row) (k : String) : Option PyVal :=
  (ctx.find? (fun p => p.1 == k)).map (fun p => p.2)

/-- Python truthiness (`not x`, `if x`). -/
def pyFalsy : PyVal → Bool
  | .vint n => n = 0
  | .vfloat q => q = 0
  | .vstr s => s.isEmpty
  | .vnone => true
  | .vnan => false

/-- Round half to even to an integer (Python `round(x)` on an exact
rational). -/
def roundHalfEvenInt (q : Rat) : Int :=
  let f := q.floor
  let frac := q - (f : Rat)
  if frac < (1 : Rat) / 2 then f
  else if (1 : Rat) / 2 < frac then f + 1
  else if f % 2 = 0 then f else f + 1

/-- Python `round(x, n)` on an exact rational (result stays a float). -/
def roundHalfEvenAt (q : Rat) (n : Int) : Rat :=
  if 0 ≤ n then
    (roundHalfEvenInt (q * (10 : Rat) ^ n.toNat) : Rat) / (10 : Rat) ^ n.toNat
  else
    (roundHalfEvenInt (q / (10 : Rat) ^ (-n).toNat) : Rat) * (10 : Rat) ^ (-n).toNat

/-- Python `int(x)` on a float value: truncation toward zero; `int(nan)`
raises. -/
def pyIntTrunc (q : Rat) : Int :=
  if 0 ≤ q then q.floor else -((-q).floor)

/-- Is the value an int/float/nan? -/
def isNum : PyVal → Bool
  | .vint _ => true
  | .vfloat _ => true
  | .vnan => true
  | _ => false

/-- Is the value an exact numeric zero? -/
def isZeroNum : PyVal → Bool
  | .vint n => n = 0
  | .vfloat q => q = 0
  | _ => false

/-- Numeric binary operation; `fa`/`fb` say whether the operands are floats
(`int op int` keeps int except true division). -/
def evalBinNum (op : BOp) (fa : Bool) (qa : Rat) (fb : Bool) (qb : Rat) :
    Except String PyVal :=
  let fl := fa || fb
  let mk : Rat → PyVal := fun q => if fl then .vfloat q else .vint q.num
  match op with
  | .add => .ok (mk (qa + qb))
  | .sub => .ok (mk (qa - qb))
  | .mult => .ok (mk (qa * qb))
  | .div =>
    if qb = 0 then .error (if fl then "float division by zero" else "division by zero")
    else .ok (.vfloat (qa / qb))
  | .mod =>
    if qb = 0 then .error "integer division or modulo by zero"
    else .ok (mk (qa - qb * ((qa / qb).floor : Rat)))
  | .floordiv =>
    if qb = 0 then .error "integer division or modulo by zero"
    else .ok (mk ((qa / qb).floor : Rat))
  | .pow =>
    if !fl then
      if 0 ≤ qb.num then .ok (.vint (qa.num ^ qb.num.toNat))
      else if qa = 0 then .error "0 cannot be raised to a negative power"
      else .ok (.vfloat ((1 : Rat) / qa ^ (-qb.num).toNat))
    else if qb.den = 1 then
      if 0 ≤ qb.num then .ok (.vfloat (qa ^ qb.num.toNat))
      else if qa = 0 then .error "0.0 cannot be raised to a negative power"
      else .ok (.vfloat ((1 : Rat) / qa ^ (-qb.num).toNat))
    else .error "non-integer float power (outside the exact-rational model)"

/-- Python binary operation on runtime values. -/
def evalBin (op : BOp) (a b : PyVal) : Except String PyVal :=
  match a, b with
  | .vstr s, .vstr t =>
    match op with
    | .add => .ok (.vstr (s ++ t))
    | _ => .error "unsupported operand type(s) for str and str"
  | .vstr s, .vint n =>
    match op with
    | .mult => .ok (.vstr (String.join (List.replicate n.toNat s)))
    | _ => .error "unsupported operand type(s) for str and int"
  | .vint n, .vstr s =>
    match op with
    | .mult => .ok (.vstr (String.join (List.replicate n.toNat s)))
    | _ => .error "unsupported operand type(s) for int and str"
  | .vint m, .vint n => evalBinNum op false (m : Rat) false (n : Rat)
  | .vint m, .vfloat q => evalBinNum op false (m : Rat) true q
  | .vfloat q, .vint n => evalBinNum op true q false (n : Rat)
  | .vfloat q, .vfloat r => evalBinNum op true q true r
  | .vnan, y =>
    if isNum y then
      match op with
      | .div | .mod | .floordiv =>
        if isZeroNum y then .error "float division by zero" else .ok .vnan
      | _ => .ok .vnan
    else .error "unsupported operand type(s)"
  | x, .vnan =>
    if isNum x then .ok .vnan else .error "unsupported operand type(s)"
  | _, _ => .error "unsupported operand type(s)"

/-- Python unary operation. -/
def evalUn (op : UOp) (a : PyVal) : Except String PyVal :=
  match op, a with
  | .usub, .vint n => .ok (.vint (-n))
  | .usub, .vfloat q => .ok (.vfloat (-q))
  | .usub, .vnan => .ok .vnan
  | .uadd, .vint n => .ok (.vint n)
  | .uadd, .vfloat q => .ok (.vfloat q)
  | .uadd, .vnan => .ok .vnan
  | .unot, v => .ok (.vint (if pyFalsy v then 1 else 0))
  | _, _ => .error "bad operand type for unary operator"

/-- The builtin `round` (the rounding function the spec's allow-list
mentions): one argument rounds half-to-even to an int; two arguments round
at a digit position and keep the float type. -/
def evalRound : List PyVal → Except String PyVal
  | [.vint n] => .ok (.vint n)
  | [.vfloat q] => .ok (.vint (roundHalfEvenInt q))
  | [.vnan] => .error "cannot convert float NaN to integer"
  | [.vint m, .vint n] =>
    .ok (.vint (if 0 ≤ n then m else pyIntTrunc (roundHalfEvenAt (m : Rat) n)))
  | [.vfloat q, .vint n] => .ok (.vfloat (roundHalfEvenAt q n))
  | [.vnan, .vint _] => .ok .vnan
  | _ => .error "bad arguments to round"

/-! The evaluator proper.  Mirrors CPython order: a `Call` resolves its
callee name first, then evaluates arguments left to right. -/
mutual
def evalExpr (ctx : Row) : PyExpr → Except String PyVal
  | .const v => .ok v
  | .name id =>
    match ctxGet ctx id with
    | some v => .ok v
    | none =>
      if id = "round" then .error "round referenced without call (outside model)"
      else .error ("name '" ++ id ++ "' is not defined")
  | .binop op l r => do
    let a ← evalExpr ctx l
    let b ← evalExpr ctx r
    evalBin op a b
  | .unop op e => do
    let a ← evalExpr ctx e
    evalUn op a
  | .call f args =>
    match f with
    | .name fn =>
      match ctxGet ctx fn with
      | some _ => do
        let _ ← evalArgs ctx args
        .error "object is not callable"
      | none =>
        if fn = "round" then do
          let vs ← evalArgs ctx args
          evalRound vs
        else .error ("name '" ++ fn ++ "' is not defined")
    | _ => .error "call of a non-name callee (outside model)"
  | .fstr parts => do
    let s ← evalFParts ctx parts
    .ok (.vstr s)
  | .formatted e => do
    let v ← evalExpr ctx e
    .ok (.vstr (pyStr v))
  | .attribute .. => .error "Attribute evaluation (outside model)"
  | .subscript .. => .error "Subscript evaluation (outside model)"
  | .compare .. => .error "Compare evaluation (outside model)"
  | .ifexp .. => .error "IfExp evaluation (outside model)"
  | .lam _ => .error "Lambda evaluation (outside model)"

def evalArgs (ctx : Row) : PyExprs → Except String (List PyVal)
  | .nil => .ok []
  | .cons h t => do
    let v ← evalExpr ctx h
    let vs ← evalArgs ctx t
    .ok (v :: vs)

def evalFParts (ctx : Row) : PyExprs → Except String String
  | .nil => .ok ""
  | .cons p rest => do
    let s ← (match p with
      | .const (.vstr s) => (.ok s : Except String String)
      | q => do
        let v ← evalExpr ctx q
        .ok (pyStr v))
    let t ← evalFParts ctx rest
    .ok (s ++ t)
end

/-- A user-supplied formula: its configuration text together with the result
of `ast.parse(text, mode="eval")` (`.error` = `SyntaxError` message). -/
structure Formula where
  text : String
  parsed : Except String PyExpr

/-- `processor.py`'s strict `safe_eval`: parse, walk-check against the strict
node tuple (message `"Unsafe expression"` with no node name), evaluate; every
failure is re-raised as `ValueError("Invalid formula: ...")`. -/
def safe_eval_strict_py (f : Formula) (ctx : Row) : Except String PyVal :=
  match f.parsed with
  | .error e => .error ("Invalid formula: " ++ e)
  | .ok t =>
    match astCheckStrictPy t with
    | some _ => .error "Invalid formula: Unsafe expression"
    | none =>
      match evalExpr ctx t with
      | .ok v => .ok v
      | .error e => .error ("Invalid formula: " ++ e)

/-- `processor_no_weight.py`'s strict `safe_eval`: same shape, wider node
tuple, and the unsafe-expression message embeds the text and the blocked
node's class name. -/
def safe_eval_strict_nw (f : Formula) (ctx : Row) : Except String PyVal :=
  match f.parsed with
  | .error e => .error ("Invalid formula: " ++ e)
  | .ok t =>
    match astCheckNW t with
    | some n =>
      .error ("Invalid formula: Unsafe expression: " ++ f.text ++ " [blocked " ++ n ++ "]")
    | none =>
      match evalExpr ctx t with
      | .ok v => .ok v
      | .error e => .error ("Invalid formula: " ++ e)

/-- The inline placeholder `description.py` returns on failure:
`f"[Description Error: {e} in: {expr}]"`. -/
def descPlaceholder (errText exprText : String) : String :=
  "[Description Error: " ++ errText ++ " in: " ++ exprText ++ "]"

/-- `description.py`'s lenient `safe_eval`: never raises — every parse,
check or evaluation failure becomes the placeholder string. -/
def desc_safe_eval (f : Formula) (ctx : Row) : PyVal :=
  match f.parsed with
  | .error e => .vstr (descPlaceholder e f.text)
  | .ok t =>
    match astCheckNW t with
    | some n =>
      .vstr (descPlaceholder ("Unsafe expression: " ++ f.text ++ " [blocked " ++ n ++ "]") f.text)
    | none =>
      match evalExpr ctx t with
      | .ok v => v
      | .error e => .vstr (descPlaceholder e f.text)

/-! ## Python `float()` on strings and cells -/

/-- Value of a nonempty all-digit character list. -/
def digitsVal? (cs : List Char) : Option Nat :=
  if cs.isEmpty then none
  else if cs.all Char.isDigit then
    some (cs.foldl (fun acc c => acc * 10 + (c.toNat - 48)) 0)
  else none

/-- Decimal mantissa `digits [. digits]` with at least one digit. -/
def mantissa? (cs : List Char) : Option Rat :=
  match cs.splitOn '.' with
  | [ip] => (digitsVal? ip).map (fun n => (n : Rat))
  | [ip, fp] =>
    if ip.isEmpty && fp.isEmpty then none
    else if ip.all Char.isDigit && fp.all Char.isDigit then
      some ((ip.foldl (fun acc c => acc * 10 + (c.toNat - 48)) 0 : Nat) +
        ((fp.foldl (fun acc c => acc * 10 + (c.toNat - 48)) 0 : Nat) : Rat) /
          (10 : Rat) ^ fp.length)
    else none
  | _ => none

/-- An optionally signed exponent part. -/
def expVal? : List Char → Option Int
  | '+' :: t => (digitsVal? t).map (fun e => (e : Int))
  | '-' :: t => (digitsVal? t).map (fun e => -(e : Int))
  | t => (digitsVal? t).map (fun e => (e : Int))

/-- Scale by a signed power of ten. -/
def ratPow10 (e : Int) (q : Rat) : Rat :=
  if 0 ≤ e then q * (10 : Rat) ^ e.toNat else q / (10 : Rat) ^ (-e).toNat

/-- The sign-stripped body of a Python float literal: `nan`, or a decimal
mantissa with an optional exponent. -/
def pyFloatSigned (neg : Bool) (cs : List Char) : Option PyVal :=
  if cs = ['n', 'a', 'n'] then some .vnan
  else
    match cs.splitOn 'e' with
    | [m] => (mantissa? m).map (fun q => .vfloat (if neg then -q else q))
    | [m, ex] =>
      (mantissa? m).bind fun q =>
        (expVal? ex).map (fun e => .vfloat (if neg then -(ratPow10 e q) else ratPow10 e q))
    | _ => none

/-- Python `float(s)` on a string: strip, lowercase, optional sign, then
`nan` or a decimal mantissa with optional fraction and exponent.
Exact-rational result; the `inf` family and underscore-grouped literals are
outside the model. -/
def pyFloat? (s : String) : Option PyVal :=
  match (pyStrip s).data.map pyLowerChar with
  | '+' :: t => pyFloatSigned false t
  | '-' :: t => pyFloatSigned true t
  | t => pyFloatSigned false t

/-- Python `float(x)` on a cell value. -/
def pyFloatOfVal : PyVal → Except String PyVal
  | .vint n => .ok (.vfloat n)
  | .vfloat q => .ok (.vfloat q)
  | .vnan => .ok .vnan
  | .vstr s =>
    match pyFloat? s with
    | some v => .ok v
    | none => .error ("could not convert string to float: '" ++ s ++ "'")
  | .vnone => .error "float() argument must be a string or a real number, not NoneType"

/-! ## Run configuration and column mapping -/

/-- The run configuration, as the flat key/value structure the CLI builds
(all formula keys present; list-valued entries carried structurally).  The
two processors read it by key; modelling it as a total structure corresponds
to the keys the CLI always supplies. -/
structure Config where
  pricing_formula : Formula
  cost_formula : Formula
  grams_formula : Formula
  seo_title_formula : Formula
  seo_description_formula : Formula
  vendor : String
  product_type : String
  collection : String
  image_url : String
  product_category : String
  weight_threshold : Rat
  variant_option_fields : List String
  description_include_columns : List String
  description_exclude_columns : List String

/-- The six mapped column names (`column_map[...]` results). -/
structure Cols where
  model : String
  voltage : String
  power : String
  weight : String
  price : String
  sku : String

/-- `row[col]` for a mapped column (pandas yields NaN for a missing cell). -/
def rowCell (r : Row) (c : String) : PyVal := rowGet r c .vnan

/-- `str(row[col]).strip()`. -/
def stripCell (r : Row) (c : String) : String := pyStrip (pyStr (rowCell r c))

/-- The placeholder list `['—', '-', '', 'N/A', 'CF']` both processors
compare stripped cells against (the em dash here is the real U+2014, unlike
`helper.is_invalid`). -/
def placeholderSet : List String := ["—", "-", "", "N/A", "CF"]

/-- `sanitize_handle`: strip, lowercase, spaces and slashes to hyphens,
parentheses removed. -/
def sanitize_handle (name : String) : String :=
  ⟨(pyLower (pyStrip name)).data.filterMap (fun c =>
    if c = '(' || c = ')' then none
    else if c = ' ' || c = '/' then some '-'
    else some c)⟩

/-- The shipping-surcharge notice text (identical in `processor.py` and
`description.py`). -/
def shippingNotice : String :=
  "<p><em>NOTE: We will contact you during order fulfilment to discuss shipping and handling costs for products weighing more than 150 pounds. These costs will be billed separately.</em></p>"

/-! ## `processor.py` (standard processor), full mode -/

/-- `processor.py.build_description`: four labelled lead fields, the
surcharge notice when `float(row[col_weight])` exceeds the **configured**
`weight_threshold`, and the manufacturer link.  `float` on an unparseable
weight raises (the caller has already parsed the same cell successfully). -/
def build_descriptionPy (r : Row) (cfg : Config) (cols : Cols) : Except String String := do
  let base :=
    "<p><strong>Model:</strong> " ++ pyStr (rowCell r cols.model) ++ "<br>" ++
    "<strong>Voltage:</strong> " ++ pyStr (rowCell r cols.voltage) ++ "<br>" ++
    "<strong>Power:</strong> " ++ pyStr (rowCell r cols.power) ++ " HP<br>" ++
    "<strong>Weight:</strong> " ++ pyStr (rowCell r cols.weight) ++ " lbs</p>"
  let wv ← pyFloatOfVal (rowCell r cols.weight)
  let heavy := match wv with
    | .vfloat q => decide (q > cfg.weight_threshold)
    | _ => false
  .ok (base ++ (if heavy then shippingNotice else "") ++
    "<p><a href=\"https://wilo.com/en/overview.html\" target=\"_blank\">View on Manufacturer Website</a></p>")

/-- One output record of `processor.py` in full mode.  Constant columns that
no claim mentions (inventory tracker/qty/policy, fulfillment service,
barcode, gift card, the Google Shopping labels, weight unit, tax code,
international prices) are omitted; each is a fixed literal in the source. -/
structure RecordPy where
  handle : String
  title : String
  body : String
  vendor : String
  ptype : String
  tags : String
  published : String
  option1Name : String
  option1Value : String
  option2Name : String
  option2Value : String
  option3Name : String
  option3Value : String
  variantSKU : String
  variantGrams : Int
  variantPrice : PyVal
  variantCompareAtPrice : PyVal
  variantCost : PyVal
  costPerItem : PyVal
  requiresShipping : String
  taxable : String
  imageSrc : String
  imagePosition : PyVal
  imageAltText : String
  seoTitle : String
  seoDescription : String
  status : String
deriving DecidableEq

/-- `list_price = float(row[col_price]) if pd.notna(...) and str(...).strip()
else 0.0`, with the surrounding `try/except` mapping failures to `0.0`. -/
def listPriceOf (cols : Cols) (r : Row) : PyVal :=
  let cell := rowCell r cols.price
  if !pdIsNull cell && !(pyStrip (pyStr cell)).isEmpty then
    match pyFloatOfVal cell with
    | .ok v => v
    | .error _ => .vfloat 0
  else .vfloat 0

/-- `int(round(x, 4))` from the grams computation. -/
def pyIntOfRound4 : PyVal → Except String Int
  | .vfloat q => .ok (pyIntTrunc (roundHalfEvenAt q 4))
  | .vint n => .ok n
  | .vnan => .error "cannot convert float NaN to integer"
  | _ => .error "type error in int(round(...))"

/-- The validity filter of `processor.py` (lines 107-110): a row is dropped
when its stripped **weight** or part-number cell is in the placeholder
list. -/
def validRowPy (cols : Cols) (r : Row) : Bool :=
  !(stripCell r cols.weight ∈ placeholderSet || stripCell r cols.sku ∈ placeholderSet)

/-- Assembly of one full-mode output record (`processor.py` lines 142-190);
`i` is the position among the group's valid rows (`enumerate(valid_rows)`). -/
def mkRecordPy (cfg : Config) (modelKey handle voltage part_number : String)
    (i : Nat) (description : String) (price cost : PyVal) (grams : Int)
    (list_price : PyVal) (heavy : Bool) : RecordPy :=
  let title := modelKey ++ " (" ++ voltage ++ ")"
  { handle := handle,
    title := if i = 0 then title else "",
    body := if i = 0 then description else "",
    vendor := if i = 0 then cfg.vendor else "",
    ptype := if i = 0 then cfg.product_type else "",
    tags := if i = 0 then cfg.vendor ++ ", " ++ cfg.collection ++ "-" ++ voltage else "",
    published := "FALSE",
    option1Name := "Voltage",
    option1Value := voltage,
    option2Name := "", option2Value := "",
    option3Name := "", option3Value := "",
    variantSKU := part_number,
    variantGrams := grams,
    variantPrice := price,
    variantCompareAtPrice := list_price,
    variantCost := cost,
    costPerItem := cost,
    requiresShipping := if heavy then "FALSE" else "TRUE",
    taxable := "TRUE",
    imageSrc := if i = 0 then cfg.image_url else "",
    imagePosition := if i = 0 then .vint 1 else .vstr "",
    imageAltText := if i = 0 then title else "",
    seoTitle :=
      if i = 0 then
        cfg.collection ++ " " ++ modelKey ++ " – " ++ cfg.vendor ++ " " ++
          cfg.collection ++ " Series " ++ voltage
      else "",
    seoDescription :=
      if i = 0 then
        cfg.collection ++ " " ++ modelKey ++ " " ++ description ++ " " ++ pyStr price ++
          " USD\nBuy " ++ modelKey ++
          " online. Durable, efficient booster pump system from " ++ cfg.vendor ++ "."
      else "",
    status := "draft" }

/-- Whether the parsed weight exceeds the configured threshold (`nan`
compares false). -/
def heavyOf (cfg : Config) (wv : PyVal) : Bool :=
  match wv with
  | .vfloat q => decide (q > cfg.weight_threshold)
  | _ => false

/-- The per-valid-row loop of `processor.py.process_file`.  `i` advances for
every valid row (Python `enumerate`), including rows later skipped by the
weight `float` failure (`except: continue`); a strict formula failure or a
NaN-to-int failure propagates and aborts the whole run. -/
def processRowsPy (cfg : Config) (cols : Cols) (modelKey handle : String) :
    Nat → List Row → Except String (List RecordPy)
  | _, [] => .ok []
  | i, r :: rest =>
    match pyFloat? (stripCell r cols.weight) with
    | none => processRowsPy cfg cols modelKey handle (i + 1) rest
    | some wv => do
      let price ← safe_eval_strict_py cfg.pricing_formula [("list_price", listPriceOf cols r)]
      let cost ← safe_eval_strict_py cfg.cost_formula [("list_price", listPriceOf cols r)]
      let gv ← safe_eval_strict_py cfg.grams_formula [("weight", wv)]
      let grams ← pyIntOfRound4 gv
      let description ← build_descriptionPy r cfg cols
      let rest1 ← processRowsPy cfg cols modelKey handle (i + 1) rest
      .ok (mkRecordPy cfg modelKey handle (stripCell r cols.voltage) (stripCell r cols.sku)
        i description price cost grams (listPriceOf cols r) (heavyOf cfg wv) :: rest1)

/-- One product group in `processor.py`: filter to valid rows; a group with
none is dropped silently; otherwise process the valid rows with the group's
handle. -/
def processGroupPy (cfg : Config) (cols : Cols) (modelKey : String) (rows : List Row) :
    Except String (List RecordPy) :=
  if (rows.filter (validRowPy cols)).isEmpty then .ok []
  else processRowsPy cfg cols modelKey (sanitize_handle modelKey) 0 (rows.filter (validRowPy cols))

/-- The overall group loop of `processor.py.process_file` (full mode), over
already-grouped rows (pandas `groupby` is an external boundary; group keys
are the model strings).  The error list is initialized empty and — exactly
as in the source — never appended to; it is returned alongside the records,
and the sidecar log would be written only if it were non-empty. -/
def processFilePy (cfg : Config) (cols : Cols) (groups : List (String × List Row)) :
    Except String (List RecordPy × List String) := do
  let recs ← groups.foldlM (fun acc g => do
    let rs ← processGroupPy cfg cols g.1 g.2
    pure (acc ++ rs)) []
  if recs.isEmpty then .error "No valid rows to export."
  else .ok (recs, [])

/-! ## `description.py` (description synthesizer) -/

/-- The destination-schema column names `description.py` excludes from the
lead-field loop (its `SHOPIFY_HEADERS` set). -/
def SHOPIFY_HEADERS_DESC : List String :=
  ["Handle", "Title", "Body (HTML)", "Vendor", "Type", "Tags", "Published",
   "Option1 Name", "Option1 Value", "Option2 Name", "Option2 Value", "Option3 Name", "Option3 Value",
   "Variant SKU", "Variant Grams", "Variant Inventory Tracker", "Variant Inventory Qty",
   "Variant Inventory Policy", "Variant Fulfillment Service", "Variant Price", "Variant Compare At Price",
   "Variant Requires Shipping", "Variant Taxable", "Variant Barcode", "Product Category",
   "Image Src", "Image Position", "Image Alt Text", "Gift Card", "SEO Title", "SEO Description",
   "Google Shopping / Google Product Category", "Google Shopping / Gender", "Google Shopping / Age Group",
   "Google Shopping / MPN", "Google Shopping / AdWords Grouping", "Google Shopping / AdWords Labels",
   "Google Shopping / Condition", "Google Shopping / Custom Product", "Google Shopping / Custom Label 0",
   "Google Shopping / Custom Label 1", "Google Shopping / Custom Label 2", "Google Shopping / Custom Label 3",
   "Google Shopping / Custom Label 4", "Variant Image", "Variant Weight Unit", "Variant Tax Code",
   "Cost per item", "Price / International", "Compare At Price / International", "Status"]

/-- `s.replace(a, b)` for single characters. -/
def replaceChar (s : String) (a b : Char) : String :=
  ⟨s.data.map (fun c => if c = a then b else c)⟩

/-- One iteration of the lead-field loop: emit the labelled line when the
column is not excluded and its value is a non-null scalar with non-blank
text. -/
def descIncludeLine (row : Row) (excludes : List String) (col : String) : String :=
  let val := rowGet row col .vnone
  let isScalar := match val with
    | .vnone => false
    | _ => true
  if !(decide (col ∈ excludes)) && isScalar && !pdIsNull val &&
      !(pyStrip (pyStr val)).isEmpty then
    "<strong>" ++ replaceChar col '_' ' ' ++ ": </strong> " ++ pyStr val ++ "<br>"
  else ""

/-- The fixed (hardcoded) Sterlco block, with the row fields it
interpolates. -/
def sterlcoBlock (row : Row) : String :=
  let part_number := rowGet row "Article Number" (.vstr "")
  let voltage := rowGet row "Voltage" (.vstr "")
  let shipping_weight := rowGet row "Weight lbs" (rowGet row "Weight" (.vstr ""))
  let boiler_hp := rowGet row "Boiler HP" (.vstr "")
  let discharge_pressure := rowGet row "Discharge Pressure PSI" (.vstr "")
  let pump_cap := rowGet row "Pump Cap (GPM)" (.vstr "")
  let motor_hp := rowGet row "Motor HP" (.vstr "")
  let rec_cap := rowGet row "Rec Cap (Gal)" (.vstr "")
  "<p><strong>Part Number: " ++ pyStr part_number ++ "</strong></p>" ++
  "<p>Sterlco® atmospherically vented condensate tanks are designed for pumping hot condensate throughout the steam system. The 4300 Series stainless steel unit is designed for wash down duty, sterilization, and corrosive environment applications. Tanks sizes range from 8-714 gallons.</p>" ++
  "<ul>" ++
  "<li>Voltage: " ++ pyStr voltage ++ "</li>" ++
  "<li>Shipping Weight: " ++ pyStr shipping_weight ++ " lb</li>" ++
  "<li>Boiler HP: " ++ pyStr boiler_hp ++ "</li>" ++
  "<li>Discharge Pressure: " ++ pyStr discharge_pressure ++ " PSI</li>" ++
  "<li>Pump Capacity: " ++ pyStr pump_cap ++ " GPM</li>" ++
  "<li>Motor HP: " ++ pyStr motor_hp ++ "</li>" ++
  "<li>Recirculation Capacity: " ++ pyStr rec_cap ++ " Gal</li>" ++
  "<li> The Sterlco® Centrifugal Pumps are capable of pumping hot condensate up to 200° F. These pumps are equipped with heavy-duty cast iron pump housing and bracket, along with a brass impeller to assure long operating life.</li>" ++
  "<li>Sterl-Seal” ceramic pump seal (250°F)</li>" ++
  "</ul>" ++
  "<p><strong>Applications:</strong> Series Condensate Units, commercial HVAC, boiler rooms</p>" ++
  "<p><a href=\"https://www.sterlcosteam.com/product_category/products/\" target=\"_blank\">Manufacturer Reference</a> | <a href=\"https://www.sterlcosteam.com/wp-content/uploads/2019/01/ts-sterlco-4200-series-boiler-feed-pumps-final.pdf\" target=\"_blank\">Specs Sheet</a></p>" ++
  "<p><strong>Voltage Selection Guide:</strong></p>" ++
  "<ul>" ++
  "<li><strong>1/60/115-208-230</strong> - Single-phase motor for light commercial applications. Compatible with standard building electrical service.</li>" ++
  "<li><strong>3/60/208-230-460</strong> - Three-phase motor for larger systems or industrial settings. Requires three-phase power supply.</li>" ++
  "</ul>" ++
  "<p>Not sure what to choose? Contact our support team for guidance on voltage selection based on your facility.</p>"

/-- The surcharge gate of `description.py` (lines 88-94): parse
`row.get('Weight', row.get('Weight lbs', 0))` with commas stripped, treating
a parse failure as `0`, and compare against the hardcoded constant `150` —
the configured `weight_threshold` is not consulted. -/
def descWeightGate (row : Row) : Bool :=
  let weight := rowGet row "Weight" (rowGet row "Weight lbs" (.vint 0))
  let cleaned : String := ⟨(pyStr weight).data.filter (fun c => c ≠ ',')⟩
  match pyFloat? cleaned with
  | some (.vfloat q) => decide (q > 150)
  | _ => false

/-- The synthesized HTML `desc` of `generate_description` (the value later
injected into the context as `description`): lead lines, Sterlco block, and
the conditionally appended surcharge notice. -/
def descBody (row : Row) (cfg : Config) : String :=
  let excludes := cfg.description_exclude_columns ++ SHOPIFY_HEADERS_DESC
  "<p>" ++ String.join (cfg.description_include_columns.map (descIncludeLine row excludes)) ++
    "</p>" ++ sterlcoBlock row ++
    (if descWeightGate row then shippingNotice else "")

/-- The run configuration as context entries (`context.update(config)`); the
list-valued entries are not scalar `PyVal`s and are omitted from the
context model. -/
def cfgPairs (cfg : Config) : Row :=
  [("pricing_formula", .vstr cfg.pricing_formula.text),
   ("cost_formula", .vstr cfg.cost_formula.text),
   ("grams_formula", .vstr cfg.grams_formula.text),
   ("seo_title_formula", .vstr cfg.seo_title_formula.text),
   ("seo_description_formula", .vstr cfg.seo_description_formula.text),
   ("vendor", .vstr cfg.vendor),
   ("product_type", .vstr cfg.product_type),
   ("collection", .vstr cfg.collection),
   ("image_url", .vstr cfg.image_url),
   ("product_category", .vstr cfg.product_category),
   ("weight_threshold", .vfloat cfg.weight_threshold)]

/-- `description.py.generate_description`: synthesize `desc`, build the SEO
context (priority: `description`, then config entries, then raw row keys,
then lowered-underscored row keys), evaluate `seo_formula` leniently, and
return the `.strip()`ped result — which raises when the lenient evaluation
succeeds with a non-string value. -/
def generate_description (row : Row) (seo_formula : Formula) (cfg : Config) :
    Except String String :=
  let desc := descBody row cfg
  let lowered := row.map (fun p => (pyLower (replaceChar p.1 ' ' '_'), p.2))
  let ctx : Row := ("description", .vstr desc) :: cfgPairs cfg ++ row ++ lowered
  match desc_safe_eval seo_formula ctx with
  | .vstr s => .ok (pyStrip s)
  | _ => .error "AttributeError: object has no attribute strip"

/-! ## `processor_no_weight.py` (no-weight processor), full mode -/

/-- One output record of the no-weight processor.  As for `RecordPy`,
constant columns no claim mentions are omitted.  `seoTitle`/`seoDescription`
hold the raw strict-eval results; option values hold the raw (or blanked)
row values. -/
structure RecordNW where
  handle : String
  title : String
  body : String
  vendor : String
  ptype : String
  tags : String
  published : String
  option1Name : String
  option1Value : PyVal
  option2Name : String
  option2Value : PyVal
  option3Name : String
  option3Value : PyVal
  variantSKU : String
  variantGrams : Int
  variantPrice : PyVal
  variantCompareAtPrice : PyVal
  costPerItem : PyVal
  requiresShipping : String
  taxable : String
  productCategory : String
  imageSrc : String
  imagePosition : PyVal
  imageAltText : String
  seoTitle : PyVal
  seoDescription : PyVal
  status : String
deriving DecidableEq

/-- The `list_price` used by the no-weight validity filter (lines 141-149):
a placeholder price is `0.0`, otherwise `float(price_raw)` with parse
failures mapped to `0.0`. -/
def listPriceFilterNW (cols : Cols) (r : Row) : PyVal :=
  if stripCell r cols.price ∈ placeholderSet then .vfloat 0
  else
    match pyFloat? (stripCell r cols.price) with
    | some v => v
    | none => .vfloat 0

/-- The validity filter of `processor_no_weight.py` (lines 140-153): a row is
dropped when its stripped part-number cell is a placeholder **or** its
`list_price` is falsy (`not list_price`). -/
def validRowNW (cols : Cols) (r : Row) : Bool :=
  !(stripCell r cols.sku ∈ placeholderSet || pyFalsy (listPriceFilterNW cols r))

/-- `clean` inside the no-weight `generate_shopify_sku`: drop spaces,
brackets, ampersands, slashes and hyphens, then uppercase. -/
def skuClean (v : PyVal) : String :=
  pyUpper ⟨(pyStr v).data.filter (fun c =>
    !(c = ' ' || c = '(' || c = ')' || c = '&' || c = '/' || c = '-'))⟩

/-- `processor_no_weight.generate_shopify_sku`: product type, model, and the
non-blank option values, cleaned and joined with hyphens. -/
def skuKeep (v : PyVal) : Bool := !pdIsNull v && !(pyStrip (pyStr v)).isEmpty

def generate_shopify_skuNW (row : Row) (cfg : Config) : String :=
  let tval := rowGet row "Type" (.vstr "")
  let mval := rowGet row "Model" (.vstr "")
  let p1 := if skuKeep tval then [skuClean tval] else []
  let p2 := if skuKeep mval then [skuClean mval] else []
  let p3 := cfg.variant_option_fields.filterMap (fun f =>
    let v := rowGet row f (.vstr "")
    if !pdIsNull v && !(["", "CF", "N/A", "—", "-"].contains (pyUpper (pyStrip (pyStr v)))) then
      some (skuClean v)
    else none)
  String.intercalate "-" (p1 ++ p2 ++ p3)

/-- The blanked option values of a row (lines 253-259): a value is blanked
to `""` when null or when its stripped uppercase form is in
`("", "CF", "N/A", "—", "-")`. -/
def optionValuesNW (cfg : Config) (r : Row) : List PyVal :=
  cfg.variant_option_fields.map (fun f =>
    let v := rowGet r f (.vstr "")
    if pdIsNull v || ["", "CF", "N/A", "—", "-"].contains (pyUpper (pyStrip (pyStr v))) then
      .vstr ""
    else v)

/-- The dynamic variant logic (lines 261-276): all configured option values
blank ⇒ the six option slots stay `''` (single-variant product); first value
blank but some later one non-blank ⇒ `none` (the `continue` that skips the
variant); otherwise fill up to three name/value slot pairs. -/
def applyVariantLogicNW (cfg : Config) (r : Row) (base : RecordNW) : Option RecordNW :=
  if (optionValuesNW cfg r).all (fun v => v == .vstr "") then
    some base
  else if (optionValuesNW cfg r).head? = some (.vstr "") then
    none
  else
    some { base with
      option1Name := (cfg.variant_option_fields.get? 0).getD "",
      option1Value := ((optionValuesNW cfg r).get? 0).getD (.vstr ""),
      option2Name := (cfg.variant_option_fields.get? 1).getD "",
      option2Value := ((optionValuesNW cfg r).get? 1).getD (.vstr ""),
      option3Name := (cfg.variant_option_fields.get? 2).getD "",
      option3Value := ((optionValuesNW cfg r).get? 2).getD (.vstr "") }

/-- The SKU logic (lines 279-282): a placeholder part number falls back to
the synthesized SKU. -/
def applySkuLogicNW (part_number : String) (r : Row) (cfg : Config) (rec0 : RecordNW) :
    RecordNW :=
  if part_number ∈ ["", "CF", "N/A", "—", "-"] then
    { rec0 with variantSKU := generate_shopify_skuNW r cfg }
  else rec0

/-- The unified per-row context of the no-weight processor (lines 175-184):
`dict(row)`, overridden by the config entries, overridden by the derived
values (priority is read left to right). -/
def ctxNW (cfg : Config) (cols : Cols) (modelKey : String) (r : Row)
    (price cost : PyVal) : Row :=
  [("description", .vstr ""), ("voltage", .vstr (stripCell r cols.voltage)),
   ("model", .vstr modelKey), ("title", .vstr modelKey), ("cost", cost),
   ("grams", .vint 0), ("price", price)] ++ cfgPairs cfg ++ r

/-- The base record of one row (lines 196-243) before the variant and SKU
logic. -/
def rowRecordBaseNW (cfg : Config) (cols : Cols) (modelKey handle : String)
    (i : Nat) (r : Row) (price cost description seo_title seo_description : PyVal) :
    RecordNW :=
  { handle := handle,
    title := modelKey,
    body := pyStr description,
    vendor := cfg.vendor,
    ptype := cfg.product_type,
    tags := cfg.vendor ++ ", " ++ cfg.collection ++ "-" ++ stripCell r cols.voltage,
    published := "FALSE",
    option1Name := "", option1Value := .vstr "",
    option2Name := "", option2Value := .vstr "",
    option3Name := "", option3Value := .vstr "",
    variantSKU := stripCell r cols.sku,
    variantGrams := 0,
    variantPrice := price,
    variantCompareAtPrice := listPriceOf cols r,
    costPerItem := cost,
    requiresShipping := "FALSE",
    taxable := "TRUE",
    productCategory := cfg.product_category,
    imageSrc := if i = 0 then cfg.image_url else "",
    imagePosition := if i = 0 then .vint 1 else .vstr "",
    imageAltText := if i = 0 then modelKey else "",
    seoTitle := seo_title,
    seoDescription := seo_description,
    status := "draft" }

/-- One valid row of the no-weight processor (lines 158-284): strict price
and cost formulas, unified context, description synthesis, strict SEO
formulas, base record, then the dynamic variant logic (`none` = the
`continue` that skips the variant) and the SKU fallback. -/
def rowStepNW (cfg : Config) (cols : Cols) (modelKey handle : String)
    (i : Nat) (r : Row) : Except String (Option RecordNW) := do
  let price ← safe_eval_strict_nw cfg.pricing_formula [("list_price", listPriceOf cols r)]
  let cost ← safe_eval_strict_nw cfg.cost_formula [("list_price", listPriceOf cols r)]
  let description ← generate_description (ctxNW cfg cols modelKey r price cost)
    cfg.seo_description_formula cfg
  let seo_title ← safe_eval_strict_nw cfg.seo_title_formula
    (("description", .vstr description) :: ctxNW cfg cols modelKey r price cost)
  let seo_description ← safe_eval_strict_nw cfg.seo_description_formula
    (("description", .vstr description) :: ctxNW cfg cols modelKey r price cost)
  match applyVariantLogicNW cfg r (rowRecordBaseNW cfg cols modelKey handle i r
    price cost (.vstr description) seo_title seo_description) with
  | some rec1 => .ok (some (applySkuLogicNW (stripCell r cols.sku) r cfg rec1))
  | none => .ok none

/-- The per-valid-row loop of the no-weight processor. -/
def processRowsNW (cfg : Config) (cols : Cols) (modelKey handle : String) :
    Nat → List Row → Except String (List RecordNW)
  | _, [] => .ok []
  | i, r :: rest => do
    let o ← rowStepNW cfg cols modelKey handle i r
    let rest1 ← processRowsNW cfg cols modelKey handle (i + 1) rest
    .ok (match o with
      | some rec1 => rec1 :: rest1
      | none => rest1)

/-- One product group of the no-weight processor: filter, drop silent when
no valid rows, otherwise process with the group handle. -/
def processGroupNW (cfg : Config) (cols : Cols) (modelKey : String) (rows : List Row) :
    Except String (List RecordNW) :=
  if (rows.filter (validRowNW cols)).isEmpty then .ok []
  else processRowsNW cfg cols modelKey (sanitize_handle modelKey) 0 (rows.filter (validRowNW cols))

/-! ## `helper.generate_shopify_sku` -/

/-- `helper.generate_shopify_sku`: when a `sku_formula` is configured it is
passed to a bare `eval(formula, {}, context)` — with no static check of any
kind — over the lowered-underscored row keys; any failure is swallowed
(`except: pass`), falling back to the `Article Number` cell and then to a
handle-plus-options concatenation. -/
def generate_shopify_sku_helper (sku_formula : Option Formula) (row : Row)
    (variant_option_fields : List String) : PyVal :=
  let attempt : Option PyVal :=
    match sku_formula with
    | some f =>
      match f.parsed with
      | .ok t =>
        match evalExpr (row.map (fun p => (pyLower (replaceChar p.1 ' ' '_'), p.2))) t with
        | .ok v => some v
        | .error _ => none
      | .error _ => none
    | none => none
  match attempt with
  | some v => v
  | none =>
    let sku := pyStrip (pyStr (rowGet row "Article Number" (.vstr "")))
    if !is_invalid (.vstr sku) then .vstr sku
    else
      let handle := pyStrip (pyStr (rowGet row "Handle" (.vstr "")))
      let options := variant_option_fields.map (fun c => pyStrip (pyStr (rowGet row c (.vstr ""))))
      let sku2 := String.intercalate "-" (handle :: options.filter (fun o => !o.isEmpty))
      if sku2.isEmpty then .vstr "AUTO-SKU" else .vstr sku2

/-! ## General helper lemmas -/

/-- Substring test on character lists. -/
def listContainsSub (hay nee : List Char) : Bool :=
  (List.range (hay.length + 1)).any (fun i => nee.isPrefixOf (hay.drop i))

/-- Substring test on strings. -/
def strContainsSub (h n : String) : Bool := listContainsSub h.data n.data

/-- Soundness of the substring test: a decomposed occurrence makes
`strContainsSub` true (so `strContainsSub h n = false` refutes every
decomposition `h = p ++ n ++ s`). -/
theorem strContainsSub_of_append (p n s : String) :
    strContainsSub (p ++ n ++ s) n = true := by
  obtain ⟨pl⟩ := p
  obtain ⟨nl⟩ := n
  obtain ⟨sl⟩ := s
  show listContainsSub (pl ++ nl ++ sl) nl = true
  unfold listContainsSub
  rw [List.any_eq_true]
  refine ⟨pl.length, List.mem_range.mpr ?_, ?_⟩
  · simp only [List.length_append]
    omega
  · rw [List.append_assoc, List.drop_left]
    rw [List.isPrefixOf_iff_prefix]
    exact List.prefix_append nl sl

/-- Keys of an association list determine their values when the keys are
duplicate-free. -/
theorem assoc_value_unique {α β : Type} [DecidableEq α] :
    ∀ (l : List (α × β)), (l.map Prod.fst).Nodup →
      ∀ {k : α} {v v' : β}, (k, v) ∈ l → (k, v') ∈ l → v = v'
  | [], _, _, _, _, h, _ => by cases h
  | kv :: rest, hnd, k, v, v', h1, h2 => by
    rw [List.map_cons, List.nodup_cons] at hnd
    rcases List.mem_cons.mp h1 with h1e | h1m <;>
      rcases List.mem_cons.mp h2 with h2e | h2m
    · exact congrArg Prod.snd (h1e.trans h2e.symm)
    · exfalso
      apply hnd.1
      have hk : kv.1 = k := congrArg Prod.fst h1e.symm
      rw [hk]
      exact List.mem_map.mpr ⟨(k, v'), h2m, rfl⟩
    · exfalso
      apply hnd.1
      have hk : kv.1 = k := congrArg Prod.fst h2e.symm
      rw [hk]
      exact List.mem_map.mpr ⟨(k, v), h1m, rfl⟩
    · exact assoc_value_unique rest hnd.2 h1m h2m

/-- A `findSome?` over a list succeeds when it succeeds on some member. -/
theorem findSome?_isSome_of_mem {α β : Type} (f : α → Option β) :
    ∀ (l : List α) (a : α), a ∈ l → (f a).isSome → (l.findSome? f).isSome
  | [], a, h, _ => by cases h
  | x :: rest, a, h, hf => by
    rw [List.findSome?_cons]
    rcases List.mem_cons.mp h with he | hm
    · subst he
      cases hfa : f a with
      | none => rw [hfa] at hf; cases hf
      | some b => simp
    · cases hfa : f x with
      | none => exact findSome?_isSome_of_mem f rest a hm hf
      | some b => simp

/-! ## C10 — `is_invalid` and the mojibake em dash -/

/-- No character uppercases to `â` (U+00E2): the outputs of `pyUpperChar`
are either `S`, a value from the uppercase table, or the character itself
when it is not a table key — and `â` is a table key. -/
theorem ahat_not_mem_pyUpperChar (c : Char) : 'â' ∉ pyUpperChar c := by
  unfold pyUpperChar
  split
  · decide
  · cases hf : upperPairs.find? (fun p => p.1 == c) with
    | some p =>
      have hmem : p ∈ upperPairs := List.mem_of_find?_eq_some hf
      have hall : ∀ q ∈ upperPairs, q.2 ≠ 'â' := by decide
      simp only [List.mem_singleton]
      exact fun h => hall p hmem h.symm
    | none =>
      simp only [List.mem_singleton]
      intro h
      rw [List.find?_eq_none] at hf
      have hin : ('â', 'Â') ∈ upperPairs := by decide
      have := hf _ hin
      rw [← h] at this
      simp at this

/-- `pyUpper` never produces the mojibake string `â€”`, whose first
character is `â`. -/
theorem pyUpper_ne_mojibake (s : String) : pyUpper s ≠ "â€”" := by
  intro h
  have hmem : 'â' ∈ (pyUpper s).data := by rw [h]; decide
  have hd : (pyUpper s).data = s.data.flatMap pyUpperChar := rfl
  rw [hd, List.mem_flatMap] at hmem
  obtain ⟨c, _, hc⟩ := hmem
  exact ahat_not_mem_pyUpperChar c hc

/-- C10: `is_invalid` returns true exactly for the pandas-null values and
for strings whose stripped uppercase form is one of `""`, `"CF"`, `"N/A"`,
`"-"`, `"NAN"` — the mojibake tuple entry `"â€”"` is unreachable because
`.upper()` maps `â` to `Â`; in particular the em dash `"—"` is *not*
invalid, and `get_variant_options` fills an option slot from an `"—"`
value. -/
theorem C10_is_invalid_exact :
    (∀ v : PyVal, is_invalid v = true ↔
      (pdIsNull v = true ∨
        ∃ s, v = .vstr s ∧ pyUpper (pyStrip s) ∈ ["", "CF", "N/A", "-", "NAN"])) ∧
    is_invalid (.vstr "—") = false ∧
    get_variant_options [("Size", .vstr "—")] ["Size"] =
      (["Size", "", ""], [.vstr "—", .vstr "", .vstr ""]) := by
  refine ⟨?_, by decide, by decide⟩
  intro v
  cases v with
  | vstr s =>
    have hne : pyUpper (pyStrip s) ≠ "â€”" := pyUpper_ne_mojibake (pyStrip s)
    simp only [is_invalid, pdIsNull, decide_eq_true_eq, List.mem_cons,
      List.not_mem_nil, or_false]
    constructor
    · intro h
      refine Or.inr ⟨s, rfl, ?_⟩
      tauto
    · rintro (h | ⟨s', hs', hmem⟩)
      · cases h
      · injection hs' with hs'
        subst hs'
        tauto
  | vint n => simp [is_invalid, pdIsNull]
  | vfloat q => simp [is_invalid, pdIsNull]
  | vnone => simp [is_invalid, pdIsNull]
  | vnan => simp [is_invalid, pdIsNull]

/-! ## C1 — the call allow-list does not exist -/

/-- C1: the static check of `processor_no_weight.py`/`description.py`
accepts a `Call` to *any* function name — `open(...)`, `__import__(...)`, or
an arbitrary name — so no allow-list of safe functions is enforced; and
`helper.generate_shopify_sku` evaluates a configured `sku_formula` with no
static check at all: the formula `7 % 3`, which both checkers block
(`Mod`), is evaluated and its value returned. -/
theorem C1_no_call_allow_list_and_unchecked_sku_eval :
    astCheckNW (.call (.name "open") (.cons (.const (.vstr "/etc/passwd")) .nil)) = none ∧
    astCheckNW (.call (.name "__import__") (.cons (.const (.vstr "os")) .nil)) = none ∧
    (∀ fn : String, astCheckNW (.call (.name fn) .nil) = none) ∧
    astCheckNW (.binop .mod (.const (.vint 7)) (.const (.vint 3))) = some "Mod" ∧
    astCheckStrictPy (.binop .mod (.const (.vint 7)) (.const (.vint 3))) = some "Mod" ∧
    generate_shopify_sku_helper
      (some ⟨"7 % 3", .ok (.binop .mod (.const (.vint 7)) (.const (.vint 3)))⟩) [] [] =
      .vint 1 :=
  ⟨rfl, rfl, fun _ => rfl, rfl, rfl, rfl⟩

/-! ## Concrete example data for counterexamples and witnesses -/

/-- The mapped column names used by the concrete examples. -/
def exCols : Cols := ⟨"Model", "Voltage", "Power", "Weight", "List Price", "Article Number"⟩

/-- A constant SEO formula (`'X'`). -/
def exFormulaX : Formula := ⟨"'X'", .ok (.const (.vstr "X"))⟩

/-- A configuration with the processors' call-free default numeric formulas
and constant SEO formulas. -/
def exCfg : Config :=
  { pricing_formula :=
      ⟨"list_price * 0.36 * 1.21",
       .ok (.binop .mult (.binop .mult (.name "list_price") (.const (.vfloat (36 / 100))))
         (.const (.vfloat (121 / 100))))⟩,
    cost_formula :=
      ⟨"list_price * 0.36",
       .ok (.binop .mult (.name "list_price") (.const (.vfloat (36 / 100))))⟩,
    grams_formula :=
      ⟨"weight * 453.592",
       .ok (.binop .mult (.name "weight") (.const (.vfloat (453592 / 1000))))⟩,
    seo_title_formula := exFormulaX,
    seo_description_formula := exFormulaX,
    vendor := "Wilo",
    product_type := "Booster Pump Systems",
    collection := "Helix",
    image_url := "http://img",
    product_category := "",
    weight_threshold := 150,
    variant_option_fields := ["Voltage"],
    description_include_columns := ["Voltage"],
    description_exclude_columns := [] }

/-- The CLI's default pricing formula, whose AST contains a `Call` to
`round`. -/
def cliPricingFormula : Formula :=
  ⟨"round(list_price * 0.36 * 1.15, 2)",
   .ok (.call (.name "round")
     (.cons (.binop .mult (.binop .mult (.name "list_price") (.const (.vfloat (36 / 100))))
       (.const (.vfloat (115 / 100)))) (.cons (.const (.vint 2)) .nil)))⟩

def exRow1 : Row :=
  [("Model", .vstr "M1"), ("Voltage", .vstr "110"), ("Article Number", .vstr "A1"),
   ("List Price", .vstr "100"), ("Weight", .vstr "10"), ("Power", .vstr "2")]

def exRow2 : Row :=
  [("Model", .vstr "M2"), ("Voltage", .vstr "220"), ("Article Number", .vstr "A2"),
   ("List Price", .vstr "100"), ("Weight", .vstr "10"), ("Power", .vstr "2")]

def c6row2 : Row :=
  [("Model", .vstr "M1"), ("Voltage", .vstr "220"), ("Article Number", .vstr "A2"),
   ("List Price", .vstr "100"), ("Weight", .vstr "10"), ("Power", .vstr "2")]

/-! ## C2 — counterexample: a strict formula failure aborts the whole run -/

/-- C2 (counterexample): with the CLI's own default pricing formula —
`round(...)`, whose `Call` node the strict `processor.py` checker blocks —
`process_file` raises for the whole run: two groups, each with one perfectly
valid row, produce an exception instead of two per-row exclusions with
logged messages. -/
theorem C2_strict_formula_failure_aborts_run :
    processFilePy { exCfg with pricing_formula := cliPricingFormula } exCols
      [("M1", [exRow1]), ("M2", [exRow2])] = .error "Invalid formula: Unsafe expression" ∧
    validRowPy exCols exRow1 = true ∧ validRowPy exCols exRow2 = true :=
  ⟨rfl, rfl, rfl⟩

/-! ## C3 — counterexample: the error message does not list the headers -/

/-- C3 (counterexample): on a table whose single header `Qqq` matches no
alias, resolution raises naming every canonical field — but the message does
not contain the available header `Qqq` (by `strContainsSub_of_append`, a
message containing it would make `strContainsSub` true). -/
theorem C3_error_message_omits_headers :
    fuzzy_match_columns ["Qqq"] =
      .error "Missing required columns: ['Model', 'Voltage', 'Power', 'Weight', 'List Price', 'Article Number']" ∧
    strContainsSub
      "Missing required columns: ['Model', 'Voltage', 'Power', 'Weight', 'List Price', 'Article Number']"
      "Qqq" = false :=
  ⟨rfl, by decide⟩

/-! ## C4 — counterexample: an exactly matching header can lose -/

def c4headers : List String :=
  ["Model Number", "Model", "Voltage", "Power HP", "Weight lbs", "List Price", "Article Number"]

/-- C4 (counterexample): the header `Model` equals the `Model` alias of the
canonical field `Model` exactly, yet resolution maps the field to
`Model Number` — the earlier header in table order, whose token-set score
against `model` is also 100. -/
theorem C4_exact_alias_not_selected :
    ("Model", ["Model"]) ∈ DEFAULT_MAP ∧
    "Model" ∈ c4headers ∧
    fuzzy_match_columns c4headers = .ok
      [("Model", "Model Number"), ("Voltage", "Voltage"), ("Power", "Power HP"),
       ("Weight", "Weight lbs"), ("List Price", "List Price"),
       ("Article Number", "Article Number")] ∧
    "Model Number" ≠ "Model" :=
  ⟨by decide, by decide, rfl, by decide⟩

/-! ## C5 — counterexample: a non-placeholder zero price is excluded -/

/-- C5 (counterexample): in the no-weight processor a row with part number
`X1` and price `"0"` — a price that is neither empty nor any of the
placeholder strings — is excluded by the validity filter (`not list_price`),
and a group made of that row alone produces no records and no error. -/
theorem C5_zero_price_row_excluded :
    validRowNW exCols [("Article Number", .vstr "X1"), ("List Price", .vstr "0")] = false ∧
    placeholderSet.contains "0" = false ∧
    placeholderSet.contains "X1" = false ∧
    processGroupNW exCfg exCols "M9"
      [[("Article Number", .vstr "X1"), ("List Price", .vstr "0")]] = .ok [] :=
  ⟨rfl, rfl, rfl, rfl⟩

/-! ## C6 — counterexample: the no-weight processor repeats shared fields -/

/-- C6 (counterexample): a no-weight group of two valid rows yields two
records, but the second record carries the product-level `Title`, `Vendor`,
`Type`, `Tags` and SEO fields too — they are not blanked to `""` on
non-primary rows. -/
theorem C6_nw_title_on_every_record :
    validRowNW exCols exRow1 = true ∧
    validRowNW exCols c6row2 = true ∧
    (match processGroupNW exCfg exCols "M1" [exRow1, c6row2] with
      | .ok recs => recs.map (fun r => (r.title, r.vendor, r.ptype, r.tags, r.seoTitle))
      | .error _ => []) =
      [("M1", "Wilo", "Booster Pump Systems", "Wilo, Helix-110", .vstr "X"),
       ("M1", "Wilo", "Booster Pump Systems", "Wilo, Helix-220", .vstr "X")] :=
  ⟨rfl, rfl, rfl⟩

/-! ## C9 — counterexample: the notice gate ignores the configured threshold -/

def c9row : Row := [("Weight", .vstr "160")]

def c9cfg : Config := { exCfg with weight_threshold := 200 }

def c9prefix : String := "<p></p>" ++ sterlcoBlock c9row

/-- C9 (counterexample): with configured `weight_threshold = 200` and weight
`160` — which does **not** exceed the configured threshold — the synthesized
description nevertheless ends with the shipping-surcharge notice, because
`description.py` compares against the hardcoded `150`; and the description
is unchanged when the configured threshold moves to `10`. -/
theorem C9_notice_ignores_configured_threshold :
    descBody c9row c9cfg = c9prefix ++ shippingNotice ∧
    pyFloat? "160" = some (.vfloat 160) ∧
    c9cfg.weight_threshold = 200 ∧
    decide ((160 : Rat) > 200) = false ∧
    descBody c9row { c9cfg with weight_threshold := 10 } = descBody c9row c9cfg :=
  ⟨rfl, rfl, rfl, rfl, rfl⟩

/-! ## Bind helpers for the `Except` do-chains -/

theorem eb_ok {ε α β : Type} (a : α) (f : α → Except ε β) :
    (Except.ok a >>= f) = f a := rfl

theorem eb_err {ε α β : Type} (e : ε) (f : α → Except ε β) :
    ((Except.error e : Except ε α) >>= f) = .error e := rfl

theorem string_append_assoc (a b c : String) : a ++ b ++ c = a ++ (b ++ c) := by
  obtain ⟨la⟩ := a
  obtain ⟨lb⟩ := b
  obtain ⟨lc⟩ := c
  show String.mk (la ++ lb ++ lc) = String.mk (la ++ (lb ++ lc))
  rw [List.append_assoc]

/-! ## C8 — the lenient evaluator -/

/-- C8: `description.py`'s lenient `safe_eval` never raises: a parse
failure, a blocked node, or an evaluation failure each produce the
deterministic inline placeholder embedding the error text and the expression
text, and a success returns the evaluated value. -/
theorem C8_lenient_placeholder (f : Formula) (ctx : Row) :
    (∀ e, f.parsed = .error e →
      desc_safe_eval f ctx = .vstr ("[Description Error: " ++ e ++ " in: " ++ f.text ++ "]")) ∧
    (∀ t n, f.parsed = .ok t → astCheckNW t = some n →
      desc_safe_eval f ctx = .vstr ("[Description Error: " ++
        ("Unsafe expression: " ++ f.text ++ " [blocked " ++ n ++ "]") ++
        " in: " ++ f.text ++ "]")) ∧
    (∀ t e, f.parsed = .ok t → astCheckNW t = none → evalExpr ctx t = .error e →
      desc_safe_eval f ctx = .vstr ("[Description Error: " ++ e ++ " in: " ++ f.text ++ "]")) ∧
    (∀ t v, f.parsed = .ok t → astCheckNW t = none → evalExpr ctx t = .ok v →
      desc_safe_eval f ctx = v) := by
  refine ⟨?_, ?_, ?_, ?_⟩
  · intro e hp
    simp [desc_safe_eval, hp, descPlaceholder]
  · intro t n hp hc
    simp [desc_safe_eval, hp, hc, descPlaceholder]
  · intro t e hp hc he
    simp [desc_safe_eval, hp, hc, he, descPlaceholder]
  · intro t v hp hc he
    simp [desc_safe_eval, hp, hc, he]

def c8formula : Formula :=
  ⟨"colour * 2", .ok (.binop .mult (.name "colour") (.const (.vint 2)))⟩

theorem C8_lenient_placeholder_witness :
    desc_safe_eval c8formula [] =
      .vstr "[Description Error: name 'colour' is not defined in: colour * 2]" :=
  (C8_lenient_placeholder c8formula []).2.2.1 _ _ rfl rfl rfl

/-! ## C9 (amended) — the notice gate -/

/-- The description body without the conditional notice (spec shape,
compared against the embedded `descBody`). -/
def descBodyNoNotice (row : Row) (cfg : Config) : String :=
  "<p>" ++ String.join (cfg.description_include_columns.map
    (descIncludeLine row (cfg.description_exclude_columns ++ SHOPIFY_HEADERS_DESC))) ++
    "</p>" ++ sterlcoBlock row

/-- The lead part of `processor.py.build_description` (spec shape). -/
def bdLead (r : Row) (cols : Cols) : String :=
  "<p><strong>Model:</strong> " ++ pyStr (rowCell r cols.model) ++ "<br>" ++
  "<strong>Voltage:</strong> " ++ pyStr (rowCell r cols.voltage) ++ "<br>" ++
  "<strong>Power:</strong> " ++ pyStr (rowCell r cols.power) ++ " HP<br>" ++
  "<strong>Weight:</strong> " ++ pyStr (rowCell r cols.weight) ++ " lbs</p>"

/-- The fixed manufacturer link `build_description` appends. -/
def bdLink : String :=
  "<p><a href=\"https://wilo.com/en/overview.html\" target=\"_blank\">View on Manufacturer Website</a></p>"

theorem string_append_empty (s : String) : s ++ "" = s := by
  obtain ⟨l⟩ := s
  show String.mk (l ++ []) = String.mk l
  rw [List.append_nil]

/-- C9 (amended): the synthesized description is independent of the
configured `weight_threshold`; the notice is appended exactly when the
hardcoded gate (`> 150` on the comma-stripped parsed weight) fires; and
`processor.py`'s `build_description` — unlike `description.py` — does gate
its notice on the configured threshold. -/
theorem C9_notice_gate (row : Row) (cfg : Config) (t : Rat) (r2 : Row) (cols : Cols) (q : Rat)
    (hw : pyFloatOfVal (rowCell r2 cols.weight) = .ok (.vfloat q)) :
    descBody row { cfg with weight_threshold := t } = descBody row cfg ∧
    (descWeightGate row = true →
      descBody row cfg = descBodyNoNotice row cfg ++ shippingNotice) ∧
    (descWeightGate row = false → descBody row cfg = descBodyNoNotice row cfg) ∧
    build_descriptionPy r2 cfg cols =
      .ok (bdLead r2 cols ++ (if q > cfg.weight_threshold then shippingNotice else "") ++ bdLink) := by
  refine ⟨rfl, ?_, ?_, ?_⟩
  · intro h
    unfold descBody descBodyNoNotice
    rw [h]
    simp
  · intro h
    unfold descBody descBodyNoNotice
    rw [h]
    simp [string_append_empty]
  · unfold build_descriptionPy bdLead bdLink
    rw [hw]
    by_cases hq : q > cfg.weight_threshold <;> simp [eb_ok, hq]

theorem C9_notice_gate_witness :
    descBody c9row exCfg = descBodyNoNotice c9row exCfg ++ shippingNotice :=
  (C9_notice_gate c9row exCfg 10 exRow1 exCols 10 rfl).2.1 rfl

/-! ## C5 (amended) — the no-weight validity filter -/

/-- A successful signed-body parse is a float or a nan. -/
theorem pyFloatSigned_shape : ∀ (neg : Bool) (cs : List Char) (v : PyVal),
    pyFloatSigned neg cs = some v → (∃ q, v = .vfloat q) ∨ v = .vnan := by
  intro neg cs v h
  unfold pyFloatSigned at h
  split at h
  · exact Or.inr (Option.some.inj h).symm
  · split at h
    · rcases Option.map_eq_some'.mp h with ⟨q, _, hv⟩
      exact Or.inl ⟨_, hv.symm⟩
    · rcases Option.bind_eq_some.mp h with ⟨q, _, h2⟩
      rcases Option.map_eq_some'.mp h2 with ⟨e, _, hv⟩
      exact Or.inl ⟨_, hv.symm⟩
    · cases h

/-- A successful `pyFloat?` parse is a float or a nan. -/
theorem pyFloat?_shape (s : String) :
    ∀ v, pyFloat? s = some v → (∃ q, v = .vfloat q) ∨ v = .vnan := by
  intro v h
  unfold pyFloat? at h
  split at h <;> exact pyFloatSigned_shape _ _ v h

/-- `pyFalsy` on the filter's `list_price` detects exactly the zero float. -/
theorem listPriceFilterNW_falsy (cols : Cols) (r : Row) :
    pyFalsy (listPriceFilterNW cols r) = true ↔ listPriceFilterNW cols r = .vfloat 0 := by
  unfold listPriceFilterNW
  split
  · simp [pyFalsy]
  · cases hm : pyFloat? (stripCell r cols.price) with
    | none => simp [pyFalsy]
    | some v =>
      rcases pyFloat?_shape _ v hm with ⟨q, rfl⟩ | rfl
      · simp [pyFalsy]
      · simp [pyFalsy]

/-- C5 (amended): in the no-weight processor a row is excluded exactly when
its stripped part-number cell is a placeholder or its `list_price` comes out
`0.0` (placeholder prices, unparseable prices and the literal price `0` all
do); a group in which every row is excluded yields no records and no
error. -/
theorem C5_filter_characterization (cols : Cols) (cfg : Config) (modelKey : String)
    (rows : List Row) (r : Row)
    (hall : ∀ r' ∈ rows, validRowNW cols r' = false) :
    (validRowNW cols r = false ↔
      stripCell r cols.sku ∈ placeholderSet ∨ listPriceFilterNW cols r = .vfloat 0) ∧
    processGroupNW cfg cols modelKey rows = .ok [] := by
  constructor
  · rw [← listPriceFilterNW_falsy]
    unfold validRowNW
    cases hA : decide (stripCell r cols.sku ∈ placeholderSet) <;>
      cases hB : pyFalsy (listPriceFilterNW cols r) <;>
        simp_all
  · unfold processGroupNW
    have : rows.filter (validRowNW cols) = [] := by
      rw [List.filter_eq_nil_iff]
      intro a ha
      simp [hall a ha]
    rw [this]
    rfl

theorem C5_filter_characterization_witness :
    processGroupNW exCfg exCols "MW" [[("Article Number", .vstr "—")]] = .ok [] :=
  (C5_filter_characterization exCols exCfg "MW" [[("Article Number", .vstr "—")]]
    [] (by decide)).2

/-! ## C7 — the variant option-slot rules -/

/-- The SKU fallback never touches the option slots. -/
theorem applySku_o1n (pn : String) (r : Row) (cfg : Config) (rec0 : RecordNW) :
    (applySkuLogicNW pn r cfg rec0).option1Name = rec0.option1Name := by
  unfold applySkuLogicNW; split <;> rfl

theorem applySku_o1v (pn : String) (r : Row) (cfg : Config) (rec0 : RecordNW) :
    (applySkuLogicNW pn r cfg rec0).option1Value = rec0.option1Value := by
  unfold applySkuLogicNW; split <;> rfl

theorem applySku_o2n (pn : String) (r : Row) (cfg : Config) (rec0 : RecordNW) :
    (applySkuLogicNW pn r cfg rec0).option2Name = rec0.option2Name := by
  unfold applySkuLogicNW; split <;> rfl

theorem applySku_o2v (pn : String) (r : Row) (cfg : Config) (rec0 : RecordNW) :
    (applySkuLogicNW pn r cfg rec0).option2Value = rec0.option2Value := by
  unfold applySkuLogicNW; split <;> rfl

theorem applySku_o3n (pn : String) (r : Row) (cfg : Config) (rec0 : RecordNW) :
    (applySkuLogicNW pn r cfg rec0).option3Name = rec0.option3Name := by
  unfold applySkuLogicNW; split <;> rfl

theorem applySku_o3v (pn : String) (r : Row) (cfg : Config) (rec0 : RecordNW) :
    (applySkuLogicNW pn r cfg rec0).option3Value = rec0.option3Value := by
  unfold applySkuLogicNW; split <;> rfl

/-- C7: for a valid row whose per-row step succeeds, the variant logic obeys
the three claimed rules: all configured option values blank ⇒ emitted with
all six option slots empty; first value blank but the row not all-blank ⇒
not emitted at all; first value non-blank ⇒ emitted with the second and
third value slots holding the (possibly blanked-to-empty) configured
values. -/
theorem C7_option_slot_rules (cfg : Config) (cols : Cols) (modelKey handle : String)
    (i : Nat) (r : Row) (res : Option RecordNW)
    (_hlen : cfg.variant_option_fields.length ≤ 3)
    (h : rowStepNW cfg cols modelKey handle i r = .ok res) :
    ((optionValuesNW cfg r).all (fun v => v == .vstr "") = true →
      ∃ rec, res = some rec ∧
        rec.option1Name = "" ∧ rec.option1Value = .vstr "" ∧
        rec.option2Name = "" ∧ rec.option2Value = .vstr "" ∧
        rec.option3Name = "" ∧ rec.option3Value = .vstr "") ∧
    ((optionValuesNW cfg r).all (fun v => v == .vstr "") = false →
      (optionValuesNW cfg r).head? = some (.vstr "") → res = none) ∧
    (∀ v0, (optionValuesNW cfg r).head? = some v0 → v0 ≠ .vstr "" →
      ∃ rec, res = some rec ∧
        rec.option1Value = v0 ∧
        rec.option2Value = ((optionValuesNW cfg r).get? 1).getD (.vstr "") ∧
        rec.option3Value = ((optionValuesNW cfg r).get? 2).getD (.vstr "")) := by
  unfold rowStepNW at h
  cases hp : safe_eval_strict_nw cfg.pricing_formula [("list_price", listPriceOf cols r)] with
  | error e => rw [hp, eb_err] at h; cases h
  | ok price =>
  rw [hp, eb_ok] at h
  cases hc : safe_eval_strict_nw cfg.cost_formula [("list_price", listPriceOf cols r)] with
  | error e => rw [hc, eb_err] at h; cases h
  | ok cost =>
  rw [hc, eb_ok] at h
  cases hd : generate_description (ctxNW cfg cols modelKey r price cost)
      cfg.seo_description_formula cfg with
  | error e => rw [hd, eb_err] at h; cases h
  | ok description =>
  rw [hd, eb_ok] at h
  cases hst : safe_eval_strict_nw cfg.seo_title_formula
      (("description", .vstr description) :: ctxNW cfg cols modelKey r price cost) with
  | error e => rw [hst, eb_err] at h; cases h
  | ok seo_title =>
  rw [hst, eb_ok] at h
  cases hsd : safe_eval_strict_nw cfg.seo_description_formula
      (("description", .vstr description) :: ctxNW cfg cols modelKey r price cost) with
  | error e => rw [hsd, eb_err] at h; cases h
  | ok seo_description =>
  rw [hsd, eb_ok] at h
  refine ⟨?_, ?_, ?_⟩
  · intro hA
    have hv : applyVariantLogicNW cfg r (rowRecordBaseNW cfg cols modelKey handle i r
        price cost (.vstr description) seo_title seo_description) =
        some (rowRecordBaseNW cfg cols modelKey handle i r
          price cost (.vstr description) seo_title seo_description) := by
      unfold applyVariantLogicNW
      rw [hA]
      simp
    rw [hv] at h
    cases h
    refine ⟨_, rfl, ?_⟩
    simp only [applySku_o1n, applySku_o1v, applySku_o2n, applySku_o2v,
      applySku_o3n, applySku_o3v]
    exact ⟨rfl, rfl, rfl, rfl, rfl, rfl⟩
  · intro hA hH
    have hv : applyVariantLogicNW cfg r (rowRecordBaseNW cfg cols modelKey handle i r
        price cost (.vstr description) seo_title seo_description) = none := by
      unfold applyVariantLogicNW
      rw [hA, hH]
      simp
    rw [hv] at h
    cases h
    rfl
  · intro v0 hH hne
    cases hov : optionValuesNW cfg r with
    | nil => rw [hov] at hH; cases hH
    | cons v0' tl =>
      rw [hov] at hH
      injection hH with hH
      subst hH
      have hA : (optionValuesNW cfg r).all (fun v => v == .vstr "") = false := by
        rw [hov]
        simp only [List.all_cons, Bool.and_eq_false_iff]
        left
        simpa using hne
      have hH' : ¬((optionValuesNW cfg r).head? = some (.vstr "")) := by
        rw [hov]
        simp only [List.head?_cons, Option.some.injEq]
        exact fun hcontra => hne hcontra
      have hv : applyVariantLogicNW cfg r (rowRecordBaseNW cfg cols modelKey handle i r
          price cost (.vstr description) seo_title seo_description) =
          some { rowRecordBaseNW cfg cols modelKey handle i r price cost (.vstr description)
              seo_title seo_description with
            option1Name := (cfg.variant_option_fields.get? 0).getD "",
            option1Value := ((optionValuesNW cfg r).get? 0).getD (.vstr ""),
            option2Name := (cfg.variant_option_fields.get? 1).getD "",
            option2Value := ((optionValuesNW cfg r).get? 1).getD (.vstr ""),
            option3Name := (cfg.variant_option_fields.get? 2).getD "",
            option3Value := ((optionValuesNW cfg r).get? 2).getD (.vstr "") } := by
        unfold applyVariantLogicNW
        rw [hA]
        simp only [Bool.false_eq_true, if_false]
        rw [if_neg hH']
      rw [hv] at h
      cases h
      refine ⟨_, rfl, ?_⟩
      simp only [applySku_o1v, applySku_o2v, applySku_o3v]
      rw [hov]
      exact ⟨rfl, rfl, rfl⟩

def c7cfg : Config := { exCfg with variant_option_fields := ["Voltage", "Power"] }

def c7row : Row :=
  [("Model", .vstr "M1"), ("Voltage", .vstr "—"), ("Power", .vstr "2"),
   ("Article Number", .vstr "A1"), ("List Price", .vstr "100")]

theorem C7_option_slot_rules_witness :
    rowStepNW c7cfg exCols "M1" "m1" 0 c7row = .ok none := by
  obtain ⟨res, hres⟩ : ∃ res, rowStepNW c7cfg exCols "M1" "m1" 0 c7row = .ok res := ⟨_, rfl⟩
  have := (C7_option_slot_rules c7cfg exCols "M1" "m1" 0 c7row res (by decide) hres).2.1
    (by decide) (by decide)
  rw [hres, this]

/-! ## C3/C4 — the resolution algorithm -/

theorem colScan_eq_find? (al : String) : ∀ hs : List String,
    colScan al hs = hs.find? (fun col => FUZZY_THRESHOLD ≤ scoreCol col al)
  | [] => rfl
  | c :: cs => by
    unfold colScan
    rw [List.find?_cons]
    by_cases h : FUZZY_THRESHOLD ≤ scoreCol c al
    · simp [h]
    · simp only [if_neg h]
      rw [colScan_eq_find? al cs]
      simp [h]

theorem aliasScan_eq_specResolve (headers : List String) : ∀ als : List String,
    aliasScan headers als = specResolve headers als
  | [] => rfl
  | al :: rest => by
    unfold aliasScan specResolve
    rw [List.findSome?_cons, colScan_eq_find? al headers]
    cases h : headers.find? (fun col => FUZZY_THRESHOLD ≤ scoreCol col al) with
    | some c => rfl
    | none => exact aliasScan_eq_specResolve headers rest

theorem fuzzy_foldl_eq (headers : List String) :
    ∀ (l : List (String × List String)) (m : List (String × String)),
      l.foldl (fun m kv =>
        match aliasScan headers kv.2 with
        | some col => m ++ [(kv.1, col)]
        | none => m) m =
      m ++ l.filterMap (fun kv => (specResolve headers kv.2).map (fun c => (kv.1, c)))
  | [], m => by simp
  | kv :: rest, m => by
    rw [List.foldl_cons, List.filterMap_cons, aliasScan_eq_specResolve headers kv.2]
    cases h : specResolve headers kv.2 with
    | some c =>
      simp only [Option.map_some']
      rw [fuzzy_foldl_eq headers rest]
      simp [List.append_assoc]
    | none =>
      simp only [Option.map_none']
      exact fuzzy_foldl_eq headers rest m

theorem default_map_keys_nodup : (DEFAULT_MAP.map Prod.fst).Nodup := by decide

/-- Membership in the spec-shaped missing list. -/
theorem mem_missingSpec (headers : List String) (field : String) :
    field ∈ missingSpec headers ↔
      ∃ als, (field, als) ∈ DEFAULT_MAP ∧ specResolve headers als = none := by
  unfold missingSpec
  constructor
  · intro h
    rcases List.mem_map.mp h with ⟨kv, hkv, hfst⟩
    rcases List.mem_filter.mp hkv with ⟨hmem, hnone⟩
    refine ⟨kv.2, ?_, Option.isNone_iff_eq_none.mp hnone⟩
    rw [← hfst]
    rw [Prod.mk.eta]
    exact hmem
  · rintro ⟨als, hmem, hnone⟩
    exact List.mem_map.mpr ⟨(field, als), List.mem_filter.mpr ⟨hmem, by simp [hnone]⟩, rfl⟩

/-- `find?` over the resolved mapping succeeds for a canonical field exactly
when that field's aliases resolve. -/
theorem find?_resolvedSpec (headers : List String) (kv : String × List String)
    (hkv : kv ∈ DEFAULT_MAP) :
    ((resolvedSpec headers).find? (fun p => p.1 == kv.1)).isNone =
      (specResolve headers kv.2).isNone := by
  cases hres : specResolve headers kv.2 with
  | some c =>
    have hmem : (kv.1, c) ∈ resolvedSpec headers :=
      List.mem_filterMap.mpr ⟨kv, hkv, by rw [hres]; rfl⟩
    have hs : ((resolvedSpec headers).find? (fun p => p.1 == kv.1)).isSome := by
      rw [List.find?_isSome]
      exact ⟨(kv.1, c), hmem, by simp⟩
    obtain ⟨p, hp⟩ := Option.isSome_iff_exists.mp hs
    rw [hp]
    rfl
  | none =>
    cases hf : (resolvedSpec headers).find? (fun p => p.1 == kv.1) with
    | none => rfl
    | some p =>
      exfalso
      have hp := List.find?_some hf
      have hpmem := List.mem_of_find?_eq_some hf
      rcases List.mem_filterMap.mp hpmem with ⟨kv', hkv', hmap⟩
      cases hr : specResolve headers kv'.2 with
      | none => rw [hr] at hmap; cases hmap
      | some c =>
        rw [hr] at hmap
        simp only [Option.map_some', Option.some.injEq] at hmap
        rw [← hmap] at hp
        simp only [beq_iff_eq] at hp
        have hmem1 : (kv.1, kv'.2) ∈ DEFAULT_MAP := by
          rw [← hp]
          rw [Prod.mk.eta]
          exact hkv'
        have hmem2 : (kv.1, kv.2) ∈ DEFAULT_MAP := by
          rw [Prod.mk.eta]
          exact hkv
        have heq : kv'.2 = kv.2 :=
          assoc_value_unique DEFAULT_MAP default_map_keys_nodup hmem1 hmem2
        rw [heq, hres] at hr
        cases hr

/-- The accumulated mapping of `fuzzy_match_columns` equals the per-field
specification `resolvedSpec`. -/
theorem fuzzyMapping_eq (headers : List String) :
    fuzzyMapping headers = resolvedSpec headers := by
  unfold fuzzyMapping
  rw [fuzzy_foldl_eq headers DEFAULT_MAP [], List.nil_append]
  rfl

theorem fuzzyMissing_eq (headers : List String) :
    fuzzyMissing headers = missingSpec headers := by
  unfold fuzzyMissing
  rw [fuzzyMapping_eq]
  rw [show (DEFAULT_MAP.map (fun kv => kv.1)) = DEFAULT_MAP.map Prod.fst from rfl]
  rw [List.filter_map]
  have hcongr : List.filter
      ((fun k => (List.find? (fun p => p.1 == k) (resolvedSpec headers)).isNone) ∘ Prod.fst)
      DEFAULT_MAP =
      List.filter (fun kv => (specResolve headers kv.2).isNone) DEFAULT_MAP :=
    List.filter_congr (fun kv hkv => find?_resolvedSpec headers kv hkv)
  rw [hcongr]
  rfl

/-- C3 (amended): `fuzzy_match_columns` resolves each canonical field by the
first alias (in configured order) and first header (in table order) whose
case-insensitive token-set score reaches 70, producing the complete mapping
when every field resolves and otherwise raising a message that names exactly
the unresolved canonical fields — but **not** the available headers.  Being a
pure function of the header list, it mutates nothing. -/
theorem C3_resolution_algorithm (headers : List String) :
    fuzzy_match_columns headers =
      if missingSpec headers = [] then .ok (resolvedSpec headers)
      else .error ("Missing required columns: " ++ pyReprStrList (missingSpec headers)) := by
  unfold fuzzy_match_columns
  rw [fuzzyMapping_eq, fuzzyMissing_eq]
  cases hm : missingSpec headers with
  | nil => simp
  | cons x xs => simp

/-- C4 (amended): when some alias of a canonical field equals a source
header up to case, that field always resolves (the exact alias scores 100
against that header) and is never among the missing fields — though, as the
accompanying counterexample shows, not necessarily to the exactly-matching
header. -/
theorem C4_exact_alias_resolves_field (headers : List String) (field : String)
    (als : List String) (h a : String)
    (hmem : (field, als) ∈ DEFAULT_MAP) (ha : a ∈ als) (hh : h ∈ headers)
    (hcase : pyLower h = pyLower a) :
    (specResolve headers als).isSome = true ∧ field ∉ missingSpec headers := by
  have hscore : FUZZY_THRESHOLD ≤ scoreCol h a := by
    unfold scoreCol
    rw [hcase]
    simp only [DEFAULT_MAP, List.mem_cons, List.not_mem_nil, or_false,
      Prod.mk.injEq] at hmem
    rcases hmem with ⟨-, rfl⟩ | ⟨-, rfl⟩ | ⟨-, rfl⟩ | ⟨-, rfl⟩ | ⟨-, rfl⟩ | ⟨-, rfl⟩ <;>
      simp only [List.mem_cons, List.not_mem_nil, or_false] at ha <;>
        rcases ha with rfl | rfl <;> decide
  have hfind : (headers.find? (fun col => FUZZY_THRESHOLD ≤ scoreCol col a)).isSome := by
    rw [List.find?_isSome]
    exact ⟨h, hh, by simpa using hscore⟩
  have hsome : (specResolve headers als).isSome := by
    unfold specResolve
    exact findSome?_isSome_of_mem _ als a ha hfind
  refine ⟨hsome, ?_⟩
  intro hmiss
  rcases (mem_missingSpec headers field).mp hmiss with ⟨als', hmem', hnone⟩
  have hals : als' = als := assoc_value_unique DEFAULT_MAP default_map_keys_nodup hmem' hmem
  rw [hals] at hnone
  rw [hnone] at hsome
  cases hsome

theorem C4_exact_alias_resolves_field_witness :
    (specResolve ["model"] ["Model"]).isSome = true ∧ "Model" ∉ missingSpec ["model"] :=
  C4_exact_alias_resolves_field ["model"] "Model" ["Model"] "model" "Model" (by decide)
    (by decide) (by decide) (by decide)

/-! ## C2/C6 — the per-valid-row loop of `processor.py` -/

/-- A valid row whose stripped weight fails `float` is skipped by
`except: continue`, with the `enumerate` index still advancing. -/
theorem processRowsPy_cons_none (cfg : Config) (cols : Cols) (mkey handle : String) (i : Nat)
    (r : Row) (rest : List Row)
    (hw : pyFloat? (stripCell r cols.weight) = none) :
    processRowsPy cfg cols mkey handle i (r :: rest) =
      processRowsPy cfg cols mkey handle (i + 1) rest := by
  simp only [processRowsPy, hw]

/-- Destructuring one successful step of `processRowsPy` on a row whose
stripped weight parses: the produced list starts with the assembled record at
the current `enumerate` index and continues with the rest of the loop. -/
theorem processRowsPy_cons_ok (cfg : Config) (cols : Cols) (mkey handle : String) (i : Nat)
    (r : Row) (rest : List Row) (wv : PyVal) (recs : List RecordPy)
    (hw : pyFloat? (stripCell r cols.weight) = some wv)
    (h : processRowsPy cfg cols mkey handle i (r :: rest) = .ok recs) :
    ∃ price cost grams desc rest1,
      processRowsPy cfg cols mkey handle (i + 1) rest = .ok rest1 ∧
      recs = mkRecordPy cfg mkey handle (stripCell r cols.voltage) (stripCell r cols.sku)
        i desc price cost grams (listPriceOf cols r) (heavyOf cfg wv) :: rest1 := by
  simp only [processRowsPy, hw] at h
  cases hpr : safe_eval_strict_py cfg.pricing_formula [("list_price", listPriceOf cols r)] with
  | error e => rw [hpr, eb_err] at h; cases h
  | ok price =>
  rw [hpr, eb_ok] at h
  cases hco : safe_eval_strict_py cfg.cost_formula [("list_price", listPriceOf cols r)] with
  | error e => rw [hco, eb_err] at h; cases h
  | ok cost =>
  rw [hco, eb_ok] at h
  cases hgv : safe_eval_strict_py cfg.grams_formula [("weight", wv)] with
  | error e => rw [hgv, eb_err] at h; cases h
  | ok gv =>
  rw [hgv, eb_ok] at h
  cases hgr : pyIntOfRound4 gv with
  | error e => rw [hgr, eb_err] at h; cases h
  | ok grams =>
  rw [hgr, eb_ok] at h
  cases hde : build_descriptionPy r cfg cols with
  | error e => rw [hde, eb_err] at h; cases h
  | ok desc =>
  rw [hde, eb_ok] at h
  cases hre : processRowsPy cfg cols mkey handle (i + 1) rest with
  | error e => rw [hre, eb_err] at h; cases h
  | ok rest1 =>
  rw [hre, eb_ok] at h
  injection h with h2
  exact ⟨price, cost, grams, desc, rest1, rfl, h2.symm⟩

/-- Every record the loop produces from `enumerate` index ≥ 1 has the empty
string in all shared product-level fields. -/
theorem processRowsPy_blank (cfg : Config) (cols : Cols) (mkey handle : String) :
    ∀ (rows : List Row) (i : Nat) (recs : List RecordPy), i ≠ 0 →
      processRowsPy cfg cols mkey handle i rows = .ok recs →
      ∀ rec ∈ recs, rec.title = "" ∧ rec.body = "" ∧ rec.vendor = "" ∧ rec.ptype = "" ∧
        rec.tags = "" ∧ rec.imageSrc = "" ∧ rec.seoTitle = "" ∧ rec.seoDescription = ""
  | [], i, recs, _, h => by
    unfold processRowsPy at h
    injection h with h2
    subst h2
    intro rec hrec
    cases hrec
  | r :: rest, i, recs, hi, h => by
    cases hw : pyFloat? (stripCell r cols.weight) with
    | none =>
      rw [processRowsPy_cons_none cfg cols mkey handle i r rest hw] at h
      exact processRowsPy_blank cfg cols mkey handle rest (i + 1) recs (Nat.succ_ne_zero i) h
    | some wv =>
      obtain ⟨price, cost, grams, desc, rest1, hre, hrecs⟩ :=
        processRowsPy_cons_ok cfg cols mkey handle i r rest wv recs hw h
      subst hrecs
      intro rec hrec
      rcases List.mem_cons.mp hrec with rfl | hrec
      · refine ⟨?_, ?_, ?_, ?_, ?_, ?_, ?_, ?_⟩ <;> simp [mkRecordPy, hi]
      · exact processRowsPy_blank cfg cols mkey handle rest (i + 1) rest1 (Nat.succ_ne_zero i)
          hre rec hrec

/-- On success the loop emits exactly one record per row whose stripped
weight parses as a float. -/
theorem processRowsPy_length (cfg : Config) (cols : Cols) (mkey handle : String) :
    ∀ (rows : List Row) (i : Nat) (recs : List RecordPy),
      processRowsPy cfg cols mkey handle i rows = .ok recs →
      recs.length = (rows.filter (fun r => (pyFloat? (stripCell r cols.weight)).isSome)).length
  | [], i, recs, h => by
    unfold processRowsPy at h
    injection h with h2
    subst h2
    rfl
  | r :: rest, i, recs, h => by
    cases hw : pyFloat? (stripCell r cols.weight) with
    | none =>
      rw [processRowsPy_cons_none cfg cols mkey handle i r rest hw] at h
      rw [List.filter_cons, if_neg (by simp [hw])]
      exact processRowsPy_length cfg cols mkey handle rest (i + 1) recs h
    | some wv =>
      obtain ⟨price, cost, grams, desc, rest1, hre, hrecs⟩ :=
        processRowsPy_cons_ok cfg cols mkey handle i r rest wv recs hw h
      subst hrecs
      rw [List.filter_cons, if_pos (by simp [hw])]
      simp only [List.length_cons]
      rw [processRowsPy_length cfg cols mkey handle rest (i + 1) rest1 hre]

/-- C2 (amended): the recoverable-failure story of `processor.py` is
narrower than claimed.  (1) On any successful run the returned error list is
empty — no message is ever appended for any row, so the sidecar error log is
never written.  (2) A row whose stripped weight does not parse as a float is
excluded silently (the loop just moves on, with the `enumerate` index still
advancing).  (3) A strict-mode formula failure is **not** recoverable: a
pricing-formula error on any reached row aborts the entire run with that
error.  No duplicate-handle check exists anywhere in the loop. -/
theorem C2_row_failures_silent_and_strict_failure_fatal :
    (∀ (cfg : Config) (cols : Cols) (groups : List (String × List Row))
        (out : List RecordPy × List String),
        processFilePy cfg cols groups = .ok out → out.2 = [])
  ∧ (∀ (cfg : Config) (cols : Cols) (mkey handle : String) (i : Nat) (r : Row)
        (rest : List Row),
        pyFloat? (stripCell r cols.weight) = none →
        processRowsPy cfg cols mkey handle i (r :: rest) =
          processRowsPy cfg cols mkey handle (i + 1) rest)
  ∧ (∀ (cfg : Config) (cols : Cols) (mkey handle : String) (i : Nat) (r : Row)
        (rest : List Row) (wv : PyVal) (e : String),
        pyFloat? (stripCell r cols.weight) = some wv →
        safe_eval_strict_py cfg.pricing_formula [("list_price", listPriceOf cols r)] =
          .error e →
        processRowsPy cfg cols mkey handle i (r :: rest) = .error e) := by
  refine ⟨?_, ?_, ?_⟩
  · intro cfg cols groups out h
    unfold processFilePy at h
    cases hf : List.foldlM (fun acc g => do
        let rs ← processGroupPy cfg cols g.1 g.2
        pure (acc ++ rs)) ([] : List RecordPy) groups with
    | error e => rw [hf, eb_err] at h; cases h
    | ok recs =>
      rw [hf, eb_ok] at h
      cases he : recs.isEmpty with
      | true => rw [he, if_pos rfl] at h; cases h
      | false =>
        rw [he, if_neg (by decide)] at h
        cases h
        rfl
  · exact fun cfg cols mkey handle i r rest hw =>
      processRowsPy_cons_none cfg cols mkey handle i r rest hw
  · intro cfg cols mkey handle i r rest wv e hw hp
    simp only [processRowsPy, hw]
    rw [hp, eb_err]

theorem C2_row_failures_silent_and_strict_failure_fatal_witness :
    processRowsPy { exCfg with pricing_formula := cliPricingFormula } exCols "M1" "m1" 0
      [exRow1] = .error "Invalid formula: Unsafe expression" := by
  obtain ⟨wv, hwv⟩ : ∃ wv, pyFloat? (stripCell exRow1 exCols.weight) = some wv := ⟨_, rfl⟩
  exact C2_row_failures_silent_and_strict_failure_fatal.2.2
    { exCfg with pricing_formula := cliPricingFormula } exCols "M1" "m1" 0 exRow1 [] wv
    "Invalid formula: Unsafe expression" hwv rfl

/-- C6 (amended): in `processor.py` a valid row yields a record only when
its stripped weight also parses as a float (the record count equals the
count of such rows, not of all valid rows), and the shared product-level
fields (Title, Body, Vendor, Type, Tags, Image Src, SEO Title, SEO
Description) are gated on the `enumerate` index over **valid** rows, which
also advances over rows skipped for an unparseable weight: every record
produced from index ≥ 1 has the empty string there; when the first valid
row's weight fails to parse, **no** record of the group carries the shared
fields; when it parses, the group's first record carries them.
(`processor_no_weight.py`, by contrast, repeats Title/Vendor/Type/Tags and
the SEO fields on every record of the group, as the accompanying
counterexample shows.) -/
theorem C6_shared_fields_gated_on_first_parsed_weight :
    (∀ (cfg : Config) (cols : Cols) (mkey handle : String) (i : Nat) (rows : List Row)
        (recs : List RecordPy),
        processRowsPy cfg cols mkey handle i rows = .ok recs →
        recs.length =
          (rows.filter (fun r => (pyFloat? (stripCell r cols.weight)).isSome)).length)
  ∧ (∀ (cfg : Config) (cols : Cols) (mkey handle : String) (i : Nat) (rows : List Row)
        (recs : List RecordPy), i ≠ 0 →
        processRowsPy cfg cols mkey handle i rows = .ok recs →
        ∀ rec ∈ recs, rec.title = "" ∧ rec.body = "" ∧ rec.vendor = "" ∧ rec.ptype = "" ∧
          rec.tags = "" ∧ rec.imageSrc = "" ∧ rec.seoTitle = "" ∧ rec.seoDescription = "")
  ∧ (∀ (cfg : Config) (cols : Cols) (mkey handle : String) (r : Row) (rest : List Row)
        (recs : List RecordPy),
        pyFloat? (stripCell r cols.weight) = none →
        processRowsPy cfg cols mkey handle 0 (r :: rest) = .ok recs →
        ∀ rec ∈ recs, rec.title = "")
  ∧ (∀ (cfg : Config) (cols : Cols) (mkey handle : String) (r : Row) (rest : List Row)
        (recs : List RecordPy) (wv : PyVal),
        pyFloat? (stripCell r cols.weight) = some wv →
        processRowsPy cfg cols mkey handle 0 (r :: rest) = .ok recs →
        (recs.map (fun rec => (rec.title, rec.vendor, rec.ptype, rec.tags,
            rec.imageSrc))).head? =
          some (mkey ++ " (" ++ stripCell r cols.voltage ++ ")", cfg.vendor, cfg.product_type,
            cfg.vendor ++ ", " ++ cfg.collection ++ "-" ++ stripCell r cols.voltage,
            cfg.image_url) ∧
        ∀ rec ∈ recs.tail, rec.title = "") := by
  refine ⟨?_, ?_, ?_, ?_⟩
  · exact fun cfg cols mkey handle i rows recs h =>
      processRowsPy_length cfg cols mkey handle rows i recs h
  · exact fun cfg cols mkey handle i rows recs hi h =>
      processRowsPy_blank cfg cols mkey handle rows i recs hi h
  · intro cfg cols mkey handle r rest recs hw h rec hrec
    rw [processRowsPy_cons_none cfg cols mkey handle 0 r rest hw] at h
    exact (processRowsPy_blank cfg cols mkey handle rest 1 recs one_ne_zero h rec hrec).1
  · intro cfg cols mkey handle r rest recs wv hw h
    obtain ⟨price, cost, grams, desc, rest1, hre, hrecs⟩ :=
      processRowsPy_cons_ok cfg cols mkey handle 0 r rest wv recs hw h
    subst hrecs
    constructor
    · simp [mkRecordPy]
    · intro rec hrec
      simp only [List.tail_cons] at hrec
      exact (processRowsPy_blank cfg cols mkey handle rest 1 rest1 one_ne_zero hre rec hrec).1

theorem C6_shared_fields_gated_on_first_parsed_weight_witness :
    Except.map (List.map RecordPy.title)
      (processRowsPy exCfg exCols "M1" "m1" 1 [exRow1]) = .ok [""] := by
  obtain ⟨recs, hrecs⟩ : ∃ recs, processRowsPy exCfg exCols "M1" "m1" 1 [exRow1] = .ok recs :=
    ⟨_, rfl⟩
  have hlen := C6_shared_fields_gated_on_first_parsed_weight.1 exCfg exCols "M1" "m1" 1
    [exRow1] recs hrecs
  have hblank := C6_shared_fields_gated_on_first_parsed_weight.2.1 exCfg exCols "M1" "m1" 1
    [exRow1] recs one_ne_zero hrecs
  have hlen1 : recs.length = 1 := by rw [hlen]; rfl
  obtain ⟨rec, rfl⟩ : ∃ rec, recs = [rec] := by
    cases recs with
    | nil => exact absurd hlen1 (by decide)
    | cons a l =>
      cases l with
      | nil => exact ⟨a, rfl⟩
      | cons b m =>
        simp only [List.length_cons] at hlen1
        omega
  rw [hrecs]
  have ht := (hblank rec (by simp)).1
  simp [Except.map, ht]

end Shopify
